import Mathlib

/-!
cyberconda: the snake's ring-buffer body store and the game update step.

A shallow embedding of `src/main.c`, followed by the properties proved of it.

The model:

* `size_t` values (`head`, `tail`, `len`, `capacity`, loop indices) are natural
  numbers.  They index or measure an allocated array of 8-byte `Point`s, so for
  a snake whose `body` really holds `capacity` cells none of the `size_t`
  expressions of the source can wrap; the one subtraction that can go below
  zero (`len - 1` on an empty snake, line 390) is modelled by `size_dec`.
* `int` coordinates are integers and `%` is C's truncated remainder
  (`Int.tmod`).
* `unsigned score` wraps modulo `2 ^ 32`; the `Uint64` clock difference of
  line 207 wraps modulo `2 ^ 64`.
* `body` is the list of the `capacity` cells the pointer addresses.  A block
  returned by `malloc` has arbitrary contents: a successful allocation is
  `some fresh`, where `fresh i` is what cell `i` holds before it is written,
  and `none` is `NULL`.
* Reading a cell outside the array, or computing `% 0`, is undefined in C.  The
  model gives such a read the value `(0, 0)` and Lean's `n % 0 = n`; statements
  below carry the bounds they need.
* The external world of one call (clock readings, `malloc` results, the values
  `rand()` returns, and a bound on the iterations of the food loop that are
  observed) is an `Env`.  A game-level function returns `none` when the C call
  does not return to its caller: the food loop is still running after
  `env.fuel` iterations, a `NULL` snake is dereferenced, or `exit` is called.
* Rendering is not modelled: it reads the game and can only clear `running`.

Layout:

The source functions, in the order of the data they work on; the functions
that mention `GRID_SIZE` once more with the grid size as a parameter; the
vocabulary of the specification (`segments`, `well_formed`, `Reachable`,
`GameInv`, ...); concrete inputs; lemmas on the ring arithmetic, the food loop,
the paths of the update, the setup, and the invariant of reachable games; then
the claims `C1`, `C2`, ... in order.
-/

namespace Cyberconda

/-! ## Constants (lines 9-17) -/

def GRID_SIZE : Int := 30
def INITIAL_SPEED_MS : Nat := 100
def SPEED_INCREMENT : Nat := 5
def MAX_SPEED : Nat := 30
def INITIAL_SNAKE_CAP : Nat := 8

/-- The largest `size_t` value (64-bit target). -/
def SIZE_MAX : Nat := 2 ^ 64 - 1

/-! ## Data model (lines 24-58) -/

structure Point where
  x : Int
  y : Int
deriving DecidableEq, Repr

inductive SnakeDirection where
  | NONE
  | UP
  | DOWN
  | LEFT
  | RIGHT
deriving DecidableEq, Repr

structure Snake where
  body : List Point
  head : Nat
  tail : Nat
  len : Nat
  capacity : Nat
deriving DecidableEq, Repr

/-- The fields of `struct SnakeGame` that the game logic reads or writes; the
window and renderer handles are left out. `snake = none` is the `NULL` pointer
that `calloc` leaves. -/
structure SnakeGame where
  running : Bool
  last_move_time : Nat
  game_speed : Nat
  score : Nat
  food : Point
  snake : Option Snake
  curr_snake_direction : SnakeDirection
  next_snake_direction : SnakeDirection
deriving DecidableEq, Repr

/-- The external world seen by one call of a game-level function. -/
structure Env where
  /-- Result of `SDL_GetTicks()` at line 207. -/
  ticks_gate : Nat
  /-- Result of `SDL_GetTicks()` at line 210. -/
  ticks_move : Nat
  /-- Result of `SDL_GetTicks()` at line 158. -/
  ticks_setup : Nat
  /-- Whether `malloc(sizeof(Snake))` at line 123 succeeds. -/
  malloc_snake : Bool
  /-- Result of the `malloc` of line 130. -/
  malloc_body : Option (Nat → Point)
  /-- Result of the `malloc` of line 378. -/
  malloc_grow : Option (Nat → Point)
  /-- The values returned by successive calls of `rand()`. -/
  rand : Nat → Nat
  /-- Number of iterations of the food loop that are observed. -/
  fuel : Nat

inductive Key where
  | UP
  | DOWN
  | LEFT
  | RIGHT
  | R
  | Q
  | OTHER
deriving DecidableEq, Repr

inductive Event where
  | QUIT
  | KEY_DOWN (key : Key)
  | OTHER
deriving DecidableEq, Repr

/-! ## Machine arithmetic -/

/-- The `size_t` value of `n - 1`. -/
def size_dec (n : Nat) : Nat :=
  if n = 0 then SIZE_MAX else n - 1

/-- The `Uint64` value of `a - b`. -/
def u64_sub (a b : Nat) : Nat :=
  (a + (2 ^ 64 - b % 2 ^ 64)) % 2 ^ 64

/-- Read of `body[i]`. -/
def body_read (body : List Point) (i : Nat) : Point :=
  body.getD i ⟨0, 0⟩

/-! ## Ring buffer (lines 376-414) -/

def snake_get_body_part (snake : Snake) (idx : Nat) : Point :=
  let body_idx := (snake.tail + idx) % snake.capacity
  body_read snake.body body_idx

def snake_push_head (malloc : Option (Nat → Point)) (snake : Snake) (point : Point) :
    Bool × Snake :=
  let grown : Option Snake :=
    if snake.len + 1 > snake.capacity then
      match malloc with
      | none => none
      | some fresh =>
        some { body := (List.range (snake.capacity * 2)).map
                 (fun i => if i < snake.len then snake_get_body_part snake i else fresh i)
               head := size_dec snake.len
               tail := 0
               len := snake.len
               capacity := snake.capacity * 2 }
    else some snake
  match grown with
  | none => (false, snake)
  | some s1 =>
    let s2 := if s1.len > 0 then { s1 with head := (s1.head + 1) % s1.capacity } else s1
    (true, { s2 with body := s2.body.set s2.head point, len := s2.len + 1 })

def snake_pop_tail (snake : Snake) : Snake :=
  if snake.len = 0 then snake
  else { snake with tail := (snake.tail + 1) % snake.capacity, len := snake.len - 1 }

/-- The logical sequence of the snake, tail first:
`snake_get_body_part 0, ..., snake_get_body_part (len - 1)`. -/
def segments (snake : Snake) : List Point :=
  (List.range snake.len).map (snake_get_body_part snake)

/-! ## Food (lines 359-374) -/

/-- The inner `for` loop of `snake_game_spawn_food`: does `p` equal one of the
segments at logical indices `0 .. len - 1`? -/
def on_snake (snake : Snake) (p : Point) : Bool :=
  (List.range snake.len).any fun i =>
    let body_part := snake_get_body_part snake i
    decide (p.x = body_part.x ∧ p.y = body_part.y)

def snake_game_spawn_food (fuel : Nat) (rand : Nat → Nat) (g : SnakeGame) :
    Option SnakeGame :=
  match fuel with
  | 0 => none
  | fuel + 1 =>
    let g1 := { g with food := ⟨Int.tmod (rand 0) GRID_SIZE, Int.tmod (rand 1) GRID_SIZE⟩ }
    match g1.snake with
    | none => none
    | some snake =>
      if on_snake snake g1.food then snake_game_spawn_food fuel (fun i => rand (i + 2)) g1
      else some g1

/-! ## Setup (lines 87-161) -/

/-- The zeroed game that `calloc` returns in `snake_game_init`. -/
def snake_game_init : SnakeGame :=
  { running := false, last_move_time := 0, game_speed := 0, score := 0, food := ⟨0, 0⟩,
    snake := none, curr_snake_direction := .NONE, next_snake_direction := .NONE }

/-- Lines 122-141 of `snake_game_setup`: the snake storage the rest of the
function works on. An allocated snake is kept; otherwise the struct and an
8-cell body are allocated (`head`, `tail` and `len` of the new struct are
overwritten at lines 143-145 before any use). `none` when an allocation
fails, in which case the snake pointer stays `NULL`. -/
def setup_storage (env : Env) (g : SnakeGame) : Option Snake :=
  match g.snake with
  | some snake => some snake
  | none =>
    if env.malloc_snake then
      match env.malloc_body with
      | none => none
      | some fresh =>
        some { body := (List.range INITIAL_SNAKE_CAP).map fresh, head := 0, tail := 0,
               len := 0, capacity := INITIAL_SNAKE_CAP }
    else none

def snake_game_setup (env : Env) (g : SnakeGame) : Option SnakeGame :=
  match setup_storage env g with
  | none => some { g with running := false }
  | some snake =>
    let snake0 := { snake with len := 0, head := 0, tail := 0 }
    match snake_push_head env.malloc_grow snake0 ⟨GRID_SIZE / 2, GRID_SIZE / 2⟩ with
    | (false, snake1) => some { g with snake := some snake1, running := false }
    | (true, snake1) =>
      match snake_game_spawn_food env.fuel env.rand { g with snake := some snake1 } with
      | none => none
      | some g1 =>
        some { g1 with running := true
                       game_speed := INITIAL_SPEED_MS
                       score := 0
                       last_move_time := env.ticks_setup
                       curr_snake_direction := .NONE
                       next_snake_direction := .NONE }

/-! ## Input (lines 172-204) -/

/-- One iteration of the polling loop of `snake_game_handle_events`. -/
def snake_game_handle_event (env : Env) (e : Event) (g : SnakeGame) : Option SnakeGame :=
  match e with
  | .QUIT => some { g with running := false }
  | .KEY_DOWN .UP =>
    if g.curr_snake_direction ≠ .DOWN then some { g with next_snake_direction := .UP }
    else some g
  | .KEY_DOWN .DOWN =>
    if g.curr_snake_direction ≠ .UP then some { g with next_snake_direction := .DOWN }
    else some g
  | .KEY_DOWN .LEFT =>
    if g.curr_snake_direction ≠ .RIGHT then some { g with next_snake_direction := .LEFT }
    else some g
  | .KEY_DOWN .RIGHT =>
    if g.curr_snake_direction ≠ .LEFT then some { g with next_snake_direction := .RIGHT }
    else some g
  | .KEY_DOWN .R => snake_game_setup env g
  | .KEY_DOWN .Q => some { g with running := false }
  | .KEY_DOWN .OTHER => some g
  | .OTHER => some g

/-- The polling loop: the events delivered by `SDL_PollEvent`, each with the
world its handling sees. -/
def snake_game_handle_events (events : List (Env × Event)) (g : SnakeGame) :
    Option SnakeGame :=
  match events with
  | [] => some g
  | (env, e) :: rest =>
    match snake_game_handle_event env e g with
    | none => none
    | some g1 => snake_game_handle_events rest g1

/-! ## Update (lines 206-257) -/

/-- Lines 212-215: a queued direction becomes the current one. -/
def resolve_direction (g : SnakeGame) : SnakeGame :=
  if g.next_snake_direction ≠ .NONE then
    { g with curr_snake_direction := g.next_snake_direction, next_snake_direction := .NONE }
  else g

/-- The `switch` of lines 223-232; `none` is the branch that calls `exit`. -/
def candidate_head (d : SnakeDirection) (snake_head : Point) : Option Point :=
  match d with
  | .UP => some { snake_head with y := Int.tmod (snake_head.y - 1 + GRID_SIZE) GRID_SIZE }
  | .DOWN => some { snake_head with y := Int.tmod (snake_head.y + 1) GRID_SIZE }
  | .LEFT => some { snake_head with x := Int.tmod (snake_head.x - 1 + GRID_SIZE) GRID_SIZE }
  | .RIGHT => some { snake_head with x := Int.tmod (snake_head.x + 1) GRID_SIZE }
  | .NONE => none

/-- The collision loop of lines 235-241: does `p` equal one of the segments at
logical indices `1 .. len - 1`? -/
def hits_body (snake : Snake) (p : Point) : Bool :=
  (List.range' 1 (snake.len - 1)).any fun i =>
    let body_part := snake_get_body_part snake i
    decide (p.x = body_part.x ∧ p.y = body_part.y)

def snake_game_update (env : Env) (g : SnakeGame) : Option SnakeGame :=
  if u64_sub env.ticks_gate g.last_move_time < g.game_speed then some g
  else
    let g1 := resolve_direction { g with last_move_time := env.ticks_move }
    if g1.curr_snake_direction = .NONE then some g1
    else
      match g1.snake with
      | none => none
      | some snake =>
        match candidate_head g1.curr_snake_direction (body_read snake.body snake.head) with
        | none => none
        | some snake_head =>
          if hits_body snake snake_head then snake_game_setup env g1
          else
            match snake_push_head env.malloc_grow snake snake_head with
            | (false, _) => some { g1 with running := false }
            | (true, snake1) =>
              let g2 := { g1 with snake := some snake1 }
              if snake_head.x = g2.food.x ∧ snake_head.y = g2.food.y then
                let g3 := { g2 with score := (g2.score + 1) % 2 ^ 32 }
                let g4 :=
                  if g3.game_speed > MAX_SPEED then
                    { g3 with game_speed := g3.game_speed - SPEED_INCREMENT }
                  else g3
                snake_game_spawn_food env.fuel env.rand g4
              else some { g2 with snake := some (snake_pop_tail snake1) }

/-! ## The game on a grid of any size

The functions of the source that mention the macro `GRID_SIZE`, with the macro
replaced by a parameter `G`; at `G = GRID_SIZE` they are the functions above. -/

/-- The `switch` of lines 223-232 on a grid of size `G`. -/
def candidate_head_on (G : Int) (d : SnakeDirection) (snake_head : Point) : Option Point :=
  match d with
  | .UP => some { snake_head with y := Int.tmod (snake_head.y - 1 + G) G }
  | .DOWN => some { snake_head with y := Int.tmod (snake_head.y + 1) G }
  | .LEFT => some { snake_head with x := Int.tmod (snake_head.x - 1 + G) G }
  | .RIGHT => some { snake_head with x := Int.tmod (snake_head.x + 1) G }
  | .NONE => none

/-- The function `snake_game_spawn_food` on a grid of size `G`. -/
def snake_game_spawn_food_on (G : Int) (fuel : Nat) (rand : Nat → Nat) (g : SnakeGame) :
    Option SnakeGame :=
  match fuel with
  | 0 => none
  | fuel + 1 =>
    let g1 := { g with food := ⟨Int.tmod (rand 0) G, Int.tmod (rand 1) G⟩ }
    match g1.snake with
    | none => none
    | some snake =>
      if on_snake snake g1.food then snake_game_spawn_food_on G fuel (fun i => rand (i + 2)) g1
      else some g1

/-- The function `snake_game_setup` on a grid of size `G`. -/
def snake_game_setup_on (G : Int) (env : Env) (g : SnakeGame) : Option SnakeGame :=
  match setup_storage env g with
  | none => some { g with running := false }
  | some snake =>
    let snake0 := { snake with len := 0, head := 0, tail := 0 }
    match snake_push_head env.malloc_grow snake0 ⟨G / 2, G / 2⟩ with
    | (false, snake1) => some { g with snake := some snake1, running := false }
    | (true, snake1) =>
      match snake_game_spawn_food_on G env.fuel env.rand { g with snake := some snake1 } with
      | none => none
      | some g1 =>
        some { g1 with running := true
                       game_speed := INITIAL_SPEED_MS
                       score := 0
                       last_move_time := env.ticks_setup
                       curr_snake_direction := .NONE
                       next_snake_direction := .NONE }

/-- The function `snake_game_update` on a grid of size `G`. -/
def snake_game_update_on (G : Int) (env : Env) (g : SnakeGame) : Option SnakeGame :=
  if u64_sub env.ticks_gate g.last_move_time < g.game_speed then some g
  else
    let g1 := resolve_direction { g with last_move_time := env.ticks_move }
    if g1.curr_snake_direction = .NONE then some g1
    else
      match g1.snake with
      | none => none
      | some snake =>
        match candidate_head_on G g1.curr_snake_direction
            (body_read snake.body snake.head) with
        | none => none
        | some snake_head =>
          if hits_body snake snake_head then snake_game_setup_on G env g1
          else
            match snake_push_head env.malloc_grow snake snake_head with
            | (false, _) => some { g1 with running := false }
            | (true, snake1) =>
              let g2 := { g1 with snake := some snake1 }
              if snake_head.x = g2.food.x ∧ snake_head.y = g2.food.y then
                let g3 := { g2 with score := (g2.score + 1) % 2 ^ 32 }
                let g4 :=
                  if g3.game_speed > MAX_SPEED then
                    { g3 with game_speed := g3.game_speed - SPEED_INCREMENT }
                  else g3
                snake_game_spawn_food_on G env.fuel env.rand g4
              else some { g2 with snake := some (snake_pop_tail snake1) }

/-- Successive calls of `snake_game_update` on a grid of size `G`, one per
world of the list. -/
def run_ticks_on (G : Int) (envs : List Env) (g : SnakeGame) : Option SnakeGame :=
  match envs with
  | [] => some g
  | env :: rest =>
    match snake_game_update_on G env g with
    | none => none
    | some g1 => run_ticks_on G rest g1

/-! ## Specification vocabulary -/

/-- The snake is non-empty, fits its storage, and `head` is where the ring
arithmetic puts the newest segment; `body` addresses `capacity` cells. -/
def well_formed (s : Snake) : Prop :=
  s.body.length = s.capacity ∧ 1 ≤ s.len ∧ s.len ≤ s.capacity ∧
    s.head = (s.tail + s.len - 1) % s.capacity

/-- Well-formedness is a decidable check on the fields. -/
instance (s : Snake) : Decidable (well_formed s) := by
  unfold well_formed; infer_instance

/-- Both coordinates lie in `[0, GRID_SIZE)`. -/
def in_grid (p : Point) : Prop :=
  0 ≤ p.x ∧ p.x < GRID_SIZE ∧ 0 ≤ p.y ∧ p.y < GRID_SIZE

/-- Grid membership is a decidable check on the coordinates. -/
instance (p : Point) : Decidable (in_grid p) := by
  unfold in_grid; infer_instance

/-- The grid centre pushed by `snake_game_setup` (line 147). -/
def grid_center : Point := ⟨GRID_SIZE / 2, GRID_SIZE / 2⟩

/-- Row-major number of a grid cell. -/
def grid_index (p : Point) : Nat :=
  p.x.toNat * 30 + p.y.toNat

/-- The direction opposite to `d`. -/
def opposite (d : SnakeDirection) : SnakeDirection :=
  match d with
  | .NONE => .NONE
  | .UP => .DOWN
  | .DOWN => .UP
  | .LEFT => .RIGHT
  | .RIGHT => .LEFT

/-- The arrow key that asks for direction `d`. -/
def arrow_key (d : SnakeDirection) : Key :=
  match d with
  | .NONE => .OTHER
  | .UP => .UP
  | .DOWN => .DOWN
  | .LEFT => .LEFT
  | .RIGHT => .RIGHT

/-- The pair sampled by iteration `k` of the food loop: calls `2k` and `2k + 1`
of `rand()`, each reduced modulo the grid size. -/
def food_sample (rand : Nat → Nat) (k : Nat) : Point :=
  ⟨Int.tmod (rand (2 * k)) GRID_SIZE, Int.tmod (rand (2 * k + 1)) GRID_SIZE⟩

/-- The food loop terminates on the stream `rand`: with enough observed
iterations it returns. -/
def spawn_terminates (rand : Nat → Nat) (g : SnakeGame) : Prop :=
  ∃ fuel g', snake_game_spawn_food fuel rand g = some g'

/-- A `rand()` stream whose first pair is the grid cell `p`. -/
def stream_at (p : Point) : Nat → Nat :=
  fun i => if i = 0 then p.x.toNat else p.y.toNat

/-- The state in which the movement part of a due tick starts (lines 210-215). -/
def tick_start (env : Env) (g : SnakeGame) : SnakeGame :=
  resolve_direction { g with last_move_time := env.ticks_move }

/-- The state handed to the food loop by a tick that eats (lines 249-252). -/
def after_eating (g : SnakeGame) (snake : Snake) : SnakeGame :=
  { g with snake := some snake
           score := (g.score + 1) % 2 ^ 32
           game_speed := if g.game_speed > MAX_SPEED then g.game_speed - SPEED_INCREMENT
                         else g.game_speed }

/-- The snake after lines 143-147 when its storage has at least one cell:
the centre is written to cell 0 and it is the only segment. -/
def reset_snake (snake : Snake) : Snake :=
  { snake with body := snake.body.set 0 grid_center, head := 0, tail := 0, len := 1 }

/-- The game after a completed `snake_game_setup` that left `snake` and `food`. -/
def started (env : Env) (snake : Snake) (food : Point) : SnakeGame :=
  { running := true, last_move_time := env.ticks_setup, game_speed := INITIAL_SPEED_MS,
    score := 0, food := food, snake := some snake, curr_snake_direction := .NONE,
    next_snake_direction := .NONE }

/-- The bound `snake->len - 1` of the loop of `snake_game_render` that draws
the body (line 279), a `size_t`. -/
def render_loop_bound (snake : Snake) : Nat :=
  size_dec snake.len

/-- Every update of the list is due when its turn comes, for a game whose
last move was stamped `t` and whose speed stays `speed`: the stamp after each
update is the second clock reading of its world. -/
def due_chain (t speed : Nat) (envs : List Env) : Bool :=
  match envs with
  | [] => true
  | env :: rest =>
    !decide (u64_sub env.ticks_gate t < speed) && due_chain env.ticks_move speed rest

/-- An operation on the body store. -/
inductive SnakeOp where
  | push_head (point : Point)
  | pop_tail
deriving DecidableEq, Repr

/-- Apply one operation; every allocation succeeds and returns a block
holding `fresh`. -/
def apply_op (fresh : Nat → Point) (snake : Snake) (op : SnakeOp) : Snake :=
  match op with
  | .push_head point => (snake_push_head (some fresh) snake point).2
  | .pop_tail => snake_pop_tail snake

def run_ops (fresh : Nat → Point) (snake : Snake) (ops : List SnakeOp) : Snake :=
  ops.foldl (apply_op fresh) snake

/-- An empty snake of capacity 8 (`head = tail = len = 0`) whose cells hold
`mem`. -/
def empty_snake (mem : Nat → Point) : Snake :=
  { body := (List.range INITIAL_SNAKE_CAP).map mem, head := 0, tail := 0, len := 0,
    capacity := INITIAL_SNAKE_CAP }

/-- The reference list of the specification: a push appends, a pop drops the
first element of a non-empty list. -/
def reference_op (l : List Point) (op : SnakeOp) : List Point :=
  match op with
  | .push_head point => l ++ [point]
  | .pop_tail => l.tail

def reference_ops (ops : List SnakeOp) : List Point :=
  ops.foldl reference_op []

/-- No pop of the sequence removes the last remaining element of the reference
list `l` (a pop of the empty list is allowed). -/
def pops_keep_one (l : List Point) (ops : List SnakeOp) : Prop :=
  match ops with
  | [] => True
  | .push_head point :: rest => pops_keep_one (l ++ [point]) rest
  | .pop_tail :: rest => l.length ≠ 1 ∧ pops_keep_one l.tail rest

/-- The point of the last push of the sequence, `d` if there is none. -/
def last_pushed (d : Point) (ops : List SnakeOp) : Point :=
  match ops with
  | [] => d
  | .push_head point :: rest => last_pushed point rest
  | .pop_tail :: rest => last_pushed d rest

/-- The store is consistent: `body` addresses `capacity >= 1` cells, `tail` is
an index, `len` fits, `head` equals `tail` on an empty snake and is where the
ring arithmetic puts the newest segment otherwise. -/
def store_ok (s : Snake) : Prop :=
  s.body.length = s.capacity ∧ 0 < s.capacity ∧ s.tail < s.capacity ∧ s.len ≤ s.capacity ∧
    (s.len = 0 → s.head = s.tail) ∧ (1 ≤ s.len → s.head = (s.tail + s.len - 1) % s.capacity)

/-- The bounds of the store: `body` addresses `capacity` cells, `len`, `head`
and `tail` are within it, and the capacity is 8 times a power of two. -/
def store_bounds (s : Snake) : Prop :=
  s.body.length = s.capacity ∧ s.len ≤ s.capacity ∧ s.head < s.capacity ∧
    s.tail < s.capacity ∧ ∃ k, s.capacity = 8 * 2 ^ k

/-- One step of a play: an event being handled, or an update call. -/
inductive Step where
  | event (env : Env) (e : Event)
  | tick (env : Env)

/-- Run the steps of a play in order. -/
def play (steps : List Step) (g : SnakeGame) : Option SnakeGame :=
  match steps with
  | [] => some g
  | .event env e :: rest =>
    match snake_game_handle_event env e g with
    | none => none
    | some g1 => play rest g1
  | .tick env :: rest =>
    match snake_game_update env g with
    | none => none
    | some g1 => play rest g1

/-- The games that the program can be in: the result of a `snake_game_setup`
on the zeroed game that reports `running`, followed by any number of handled
events and update calls (each in any world). Rendering only ever clears
`running`, which the quit event does as well. -/
inductive Reachable : SnakeGame → Prop where
  | setup (env : Env) (g : SnakeGame)
      (h : snake_game_setup env snake_game_init = some g) (hrun : g.running = true) :
      Reachable g
  | event (env : Env) (e : Event) (g g' : SnakeGame) (hg : Reachable g)
      (h : snake_game_handle_event env e g = some g') : Reachable g'
  | tick (env : Env) (g g' : SnakeGame) (hg : Reachable g)
      (h : snake_game_update env g = some g') : Reachable g'

/-- What holds of a game in play with snake `s`. -/
structure GameInv (g : SnakeGame) (s : Snake) : Prop where
  snake_eq : g.snake = some s
  wf : well_formed s
  tail_lt : s.tail < s.capacity
  cap_ge : INITIAL_SNAKE_CAP ≤ s.capacity
  nodup : (segments s).Nodup
  grid : ∀ p ∈ segments s, in_grid p
  food_free : g.food ∉ segments s
  score_len : g.score + 1 = s.len
  speed_ge : MAX_SPEED ≤ g.game_speed
  speed_le : g.game_speed ≤ INITIAL_SPEED_MS
  speed_step : g.game_speed % SPEED_INCREMENT = 0
  no_reverse : g.curr_snake_direction ≠ .NONE →
    g.next_snake_direction ≠ opposite g.curr_snake_direction

/-! ## Concrete inputs -/

/-- The operations that empty the snake away from cell 0 and then push again. -/
def refill_ops : List SnakeOp :=
  [.push_head ⟨1, 1⟩, .pop_tail, .push_head ⟨2, 2⟩]

/-- A full snake whose ring is wrapped: logical order `(3,3), (1,1), (2,2)`. -/
def full_snake : Snake :=
  { body := [⟨1, 1⟩, ⟨2, 2⟩, ⟨3, 3⟩], head := 1, tail := 2, len := 3, capacity := 3 }

/-- A world at clock reading `t` in which allocations succeed and the food
loop first draws `(fx, fy)`, then `(2, 3)`. -/
def world (t fx fy : Nat) : Env :=
  { ticks_gate := t, ticks_move := t, ticks_setup := t, malloc_snake := true,
    malloc_body := some fun _ => ⟨9, 9⟩, malloc_grow := some fun _ => ⟨9, 9⟩,
    rand := fun i => if i = 0 then fx else if i = 1 then fy else i, fuel := 4 }

/-- A three-segment snake `(13,15), (14,15), (15,15)` in an 8-cell store. -/
def sample_snake : Snake :=
  { body := [⟨13, 15⟩, ⟨14, 15⟩, ⟨15, 15⟩, ⟨9, 9⟩, ⟨9, 9⟩, ⟨9, 9⟩, ⟨9, 9⟩, ⟨9, 9⟩],
    head := 2, tail := 0, len := 3, capacity := 8 }

/-- A game in play: `sample_snake` heading right, food at `(20, 20)`. -/
def sample_game : SnakeGame :=
  { running := true, last_move_time := 800, game_speed := 100, score := 2, food := ⟨20, 20⟩,
    snake := some sample_snake, curr_snake_direction := .RIGHT,
    next_snake_direction := .NONE }

/-- A five-segment snake `(4,5), (5,5), (6,5), (6,6), (5,6)` whose head at
`(5,6)` has the segment of logical index 1 right above it. -/
def coiled_snake : Snake :=
  { body := [⟨4, 5⟩, ⟨5, 5⟩, ⟨6, 5⟩, ⟨6, 6⟩, ⟨5, 6⟩, ⟨9, 9⟩, ⟨9, 9⟩, ⟨9, 9⟩],
    head := 4, tail := 0, len := 5, capacity := 8 }

/-- A game in play: `coiled_snake` heading up, into its own body. -/
def coiled_game : SnakeGame :=
  { running := true, last_move_time := 800, game_speed := 90, score := 4, food := ⟨20, 20⟩,
    snake := some coiled_snake, curr_snake_direction := .UP,
    next_snake_direction := .NONE }

/-- A `rand()` stream whose successive pairs are `(13,15), (14,15), (15,15),
(16,15), ...`. -/
def walking_rand : Nat → Nat :=
  fun i => if i % 2 = 1 then 15 else 13 + i / 2

/-- The 8-cell snake that the first setup leaves. -/
def first_snake : Snake :=
  { body := [⟨15, 15⟩, ⟨9, 9⟩, ⟨9, 9⟩, ⟨9, 9⟩, ⟨9, 9⟩, ⟨9, 9⟩, ⟨9, 9⟩, ⟨9, 9⟩],
    head := 0, tail := 0, len := 1, capacity := 8 }

/-- The game after the first setup in `world 1000 16 15`: food right of the snake. -/
def first_game : SnakeGame :=
  { running := true, last_move_time := 1000, game_speed := 100, score := 0,
    food := ⟨16, 15⟩, snake := some first_snake, curr_snake_direction := .NONE,
    next_snake_direction := .NONE }

/-- The game `first_game` after a Right key. -/
def eat_game : SnakeGame :=
  { first_game with next_snake_direction := .RIGHT }

/-- A play after the first setup: the snake eats six times in a row while
going up twice, left twice, down and right. -/
def hook_steps : List Step :=
  [.event (world 1000 0 0) (.KEY_DOWN .UP), .tick (world 2000 15 13),
   .tick (world 3000 14 13),
   .event (world 3000 0 0) (.KEY_DOWN .LEFT), .tick (world 4000 13 13),
   .tick (world 5000 13 14),
   .event (world 5000 0 0) (.KEY_DOWN .DOWN), .tick (world 6000 14 14),
   .event (world 6000 0 0) (.KEY_DOWN .RIGHT), .tick (world 7000 20 20)]

/-- The game the first setup leaves in `world 1000 15 14`. -/
def hook_start : SnakeGame :=
  { running := true, last_move_time := 1000, game_speed := 100, score := 0,
    food := ⟨15, 14⟩,
    snake := some { body := [⟨15, 15⟩, ⟨9, 9⟩, ⟨9, 9⟩, ⟨9, 9⟩, ⟨9, 9⟩, ⟨9, 9⟩, ⟨9, 9⟩, ⟨9, 9⟩],
                    head := 0, tail := 0, len := 1, capacity := 8 },
    curr_snake_direction := .NONE, next_snake_direction := .NONE }

/-- The seven-segment snake `(15,15), (15,14), (15,13), (14,13), (13,13),
(13,14), (14,14)` that `hook_steps` grows: the cell right of its head
`(14,14)` is its own segment of logical index 1. -/
def hook_snake : Snake :=
  { body := [⟨15, 15⟩, ⟨15, 14⟩, ⟨15, 13⟩, ⟨14, 13⟩, ⟨13, 13⟩, ⟨13, 14⟩, ⟨14, 14⟩, ⟨9, 9⟩],
    head := 6, tail := 0, len := 7, capacity := 8 }

/-- The game after `hook_steps`: `hook_snake` heading right with no pending
direction. -/
def hook_game : SnakeGame :=
  { running := true, last_move_time := 7000, game_speed := 70, score := 6,
    food := ⟨20, 20⟩, snake := some hook_snake, curr_snake_direction := .RIGHT,
    next_snake_direction := .NONE }

/-- A world at clock reading `t` in which the allocation of `snake_push_head`
fails. -/
def starved (t : Nat) : Env :=
  { world t 3 4 with malloc_grow := none }

/-- A game whose snake `full_snake` fills its store, heading right. -/
def full_game : SnakeGame :=
  { running := true, last_move_time := 800, game_speed := 100, score := 2, food := ⟨20, 20⟩,
    snake := some full_snake, curr_snake_direction := .RIGHT,
    next_snake_direction := .NONE }

/-- A four-segment snake `(5,5), (6,5), (6,6), (5,6)` going round a square: the
cell above its head `(5,6)` is its own tail. -/
def square_snake : Snake :=
  { body := [⟨5, 5⟩, ⟨6, 5⟩, ⟨6, 6⟩, ⟨5, 6⟩, ⟨9, 9⟩, ⟨9, 9⟩, ⟨9, 9⟩, ⟨9, 9⟩],
    head := 3, tail := 0, len := 4, capacity := 8 }

/-- A game in play: `square_snake` heading left with Up pending. -/
def square_game : SnakeGame :=
  { running := true, last_move_time := 800, game_speed := 85, score := 3, food := ⟨20, 20⟩,
    snake := some square_snake, curr_snake_direction := .LEFT,
    next_snake_direction := .UP }

/-- A world in which the clock advances between the two readings of
`snake_game_update`: 1000 at the gate (line 207), 1001 for the stamp
(line 210). -/
def late_clock : Env :=
  { world 1000 3 4 with ticks_move := 1001 }

/-- The game `coiled_game` heading left with Up pending: the pending direction
leads into the body. -/
def turn_game : SnakeGame :=
  { coiled_game with curr_snake_direction := .LEFT, next_snake_direction := .UP }

/-- A one-segment snake at `(2, 2)` in an 8-cell store. -/
def toy_snake : Snake :=
  { body := [⟨2, 2⟩, ⟨9, 9⟩, ⟨9, 9⟩, ⟨9, 9⟩, ⟨9, 9⟩, ⟨9, 9⟩, ⟨9, 9⟩, ⟨9, 9⟩],
    head := 0, tail := 0, len := 1, capacity := 8 }

/-- A game for a 4 by 4 grid: `toy_snake` heading right, food at `(0, 0)`. -/
def toy_game : SnakeGame :=
  { running := true, last_move_time := 0, game_speed := 100, score := 0, food := ⟨0, 0⟩,
    snake := some toy_snake, curr_snake_direction := .RIGHT,
    next_snake_direction := .NONE }

/-- Three worlds, a second apart. -/
def toy_worlds : List Env :=
  [world 1000 0 0, world 2000 0 0, world 3000 0 0]

/-! ## Memory and ring arithmetic -/

theorem body_read_set_eq (body : List Point) (i : Nat) (p : Point) (h : i < body.length) :
    body_read (body.set i p) i = p := by
  unfold body_read
  rw [List.getD_eq_getElem _ _ (by simpa using h)]
  simp

theorem body_read_set_ne (body : List Point) (i j : Nat) (p : Point) (h : i ≠ j) :
    body_read (body.set i p) j = body_read body j := by
  unfold body_read
  by_cases hj : j < body.length
  · rw [List.getD_eq_getElem _ _ (by simpa using hj), List.getD_eq_getElem _ _ hj]
    simp [List.getElem_set, h]
  · have h1 : body.length ≤ j := Nat.le_of_not_lt hj
    rw [List.getD_eq_default _ _ (by simpa using h1), List.getD_eq_default _ _ h1]

theorem body_read_map_range (f : Nat → Point) (n i : Nat) (h : i < n) :
    body_read ((List.range n).map f) i = f i := by
  unfold body_read
  rw [List.getD_eq_getElem _ _ (by simpa using h)]
  simp

/-- Two logical offsets below the capacity address different cells. -/
theorem ring_index_ne (t i j c : Nat) (hi : i < j) (hj : j < c) :
    (t + i) % c ≠ (t + j) % c := by
  intro h
  have h1 : i ≡ j [MOD c] := Nat.ModEq.add_left_cancel' t h
  have h2 : i % c = j % c := h1
  rw [Nat.mod_eq_of_lt (by omega), Nat.mod_eq_of_lt hj] at h2
  omega

theorem ring_index_succ (t n c : Nat) (hn : 1 ≤ n) :
    ((t + n - 1) % c + 1) % c = (t + n) % c := by
  rw [Nat.mod_add_mod]
  congr 1
  omega

theorem segments_length (s : Snake) : (segments s).length = s.len := by
  simp [segments]

theorem segments_getElem (s : Snake) (i : Nat) (h : i < (segments s).length) :
    (segments s)[i] = snake_get_body_part s i := by
  simp [segments]

theorem segments_eq_append (s s' : Snake) (p : Point) (hlen : s'.len = s.len + 1)
    (hold : ∀ i, i < s.len → snake_get_body_part s' i = snake_get_body_part s i)
    (hnew : snake_get_body_part s' s.len = p) :
    segments s' = segments s ++ [p] := by
  unfold segments
  rw [hlen, List.range_succ, List.map_append]
  congr 1
  · apply List.map_congr_left
    intro i hi
    exact hold i (List.mem_range.mp hi)
  · simp [hnew]

/-- Push without growth, on a non-empty snake. -/
theorem push_head_room_eq (m : Option (Nat → Point)) (s : Snake) (p : Point)
    (hl : 1 ≤ s.len) (hroom : s.len < s.capacity) :
    snake_push_head m s p =
      (true, { s with head := (s.head + 1) % s.capacity
                      body := s.body.set ((s.head + 1) % s.capacity) p
                      len := s.len + 1 }) := by
  have hng : ¬ (s.len + 1 > s.capacity) := by omega
  have hpos : s.len > 0 := hl
  simp only [snake_push_head, hng, if_false, hpos, if_true]

theorem push_head_room (m : Option (Nat → Point)) (s : Snake) (p : Point)
    (hwf : well_formed s) (hroom : s.len < s.capacity) :
    ∃ s', snake_push_head m s p = (true, s') ∧ well_formed s' ∧
      s'.len = s.len + 1 ∧ s'.capacity = s.capacity ∧ s'.tail = s.tail ∧
      (∀ i, i < s.len → snake_get_body_part s' i = snake_get_body_part s i) ∧
      snake_get_body_part s' s.len = p := by
  obtain ⟨hb, hl, hc, hh⟩ := hwf
  have hhead : (s.head + 1) % s.capacity = (s.tail + s.len) % s.capacity := by
    rw [hh]; exact ring_index_succ _ _ _ hl
  have hlt : (s.tail + s.len) % s.capacity < s.body.length := by
    rw [hb]; exact Nat.mod_lt _ (by omega)
  refine ⟨_, push_head_room_eq m s p hl hroom, ?_, rfl, rfl, rfl, ?_, ?_⟩
  · refine ⟨by simp [hb], by simp, by simp; omega, ?_⟩
    simp only [hhead]
    congr 1
  · intro i hi
    simp only [snake_get_body_part, hhead]
    exact body_read_set_ne _ _ _ _ (Ne.symm (ring_index_ne _ _ _ _ hi hroom))
  · simp only [snake_get_body_part, hhead]
    exact body_read_set_eq _ _ _ hlt

/-- Push with growth, on a full snake. -/
theorem push_head_full_eq (fresh : Nat → Point) (s : Snake) (p : Point)
    (hl : 1 ≤ s.len) (hfull : s.len = s.capacity) :
    snake_push_head (some fresh) s p =
      (true, { body := ((List.range (s.capacity * 2)).map
                 (fun i => if i < s.len then snake_get_body_part s i else fresh i)).set s.len p
               head := s.len
               tail := 0
               len := s.len + 1
               capacity := s.capacity * 2 }) := by
  have hgrow : s.len + 1 > s.capacity := by omega
  have hpos : 0 < s.len := hl
  have hdec : size_dec s.len = s.len - 1 := by
    unfold size_dec; rw [if_neg (by omega)]
  have hhead : (s.len - 1 + 1) % (s.capacity * 2) = s.len := by
    rw [Nat.sub_add_cancel hl]; exact Nat.mod_eq_of_lt (by omega)
  simp only [snake_push_head, hgrow, if_true, hpos, hdec, hhead]

theorem push_head_full (fresh : Nat → Point) (s : Snake) (p : Point)
    (hl : 1 ≤ s.len) (hfull : s.len = s.capacity) :
    ∃ s', snake_push_head (some fresh) s p = (true, s') ∧ well_formed s' ∧
      s'.len = s.len + 1 ∧ s'.capacity = s.capacity * 2 ∧ s'.tail = 0 ∧ s'.head = s.len ∧
      (∀ i, i < s.len → snake_get_body_part s' i = snake_get_body_part s i) ∧
      snake_get_body_part s' s.len = p := by
  refine ⟨_, push_head_full_eq fresh s p hl hfull, ?_, rfl, rfl, rfl, rfl, ?_, ?_⟩
  · refine ⟨by simp, by simp, by simp; omega, ?_⟩
    simp only [Nat.zero_add, Nat.add_sub_cancel]
    exact (Nat.mod_eq_of_lt (by omega)).symm
  · intro i hi
    have hi2 : i % (s.capacity * 2) = i := Nat.mod_eq_of_lt (by omega)
    simp only [snake_get_body_part, Nat.zero_add, hi2]
    rw [body_read_set_ne _ _ _ _ (by omega), body_read_map_range _ _ _ (by omega)]
    simp [hi, snake_get_body_part]
  · have hi2 : s.len % (s.capacity * 2) = s.len := Nat.mod_eq_of_lt (by omega)
    simp only [snake_get_body_part, Nat.zero_add, hi2]
    exact body_read_set_eq _ _ _ (by simp; omega)

/-- Push on a well-formed snake: whenever it reports success, the logical
sequence gains the point at its end and the snake stays well formed. -/
theorem push_head_ok (m : Option (Nat → Point)) (s s' : Snake) (p : Point)
    (hwf : well_formed s) (h : snake_push_head m s p = (true, s')) :
    well_formed s' ∧ s'.len = s.len + 1 ∧ segments s' = segments s ++ [p] ∧
      s.capacity ≤ s'.capacity := by
  by_cases hroom : s.len < s.capacity
  · obtain ⟨t, ht, hwf', hlen, hcap, -, hold, hnew⟩ := push_head_room m s p hwf hroom
    rw [ht] at h
    cases h
    exact ⟨hwf', hlen, segments_eq_append s _ p hlen hold hnew, by omega⟩
  · have hfull : s.len = s.capacity := by
      have := hwf.2.2.1; omega
    cases m with
    | none =>
      have : s.len + 1 > s.capacity := by omega
      simp [snake_push_head, this] at h
    | some fresh =>
      obtain ⟨t, ht, hwf', hlen, hcap, -, -, hold, hnew⟩ :=
        push_head_full fresh s p hwf.2.1 hfull
      rw [ht] at h
      cases h
      exact ⟨hwf', hlen, segments_eq_append s _ p hlen hold hnew, by omega⟩

theorem pop_tail_get (s : Snake) (i : Nat) (h : 0 < s.len) :
    snake_get_body_part (snake_pop_tail s) i = snake_get_body_part s (i + 1) := by
  have h0 : ¬ s.len = 0 := by omega
  simp only [snake_pop_tail, h0, if_false, snake_get_body_part]
  congr 1
  rw [Nat.mod_add_mod]
  congr 1
  omega

theorem pop_tail_segments (s : Snake) : segments (snake_pop_tail s) = (segments s).tail := by
  by_cases h : s.len = 0
  · simp [snake_pop_tail, h, segments]
  · have hpos : 0 < s.len := Nat.pos_of_ne_zero h
    apply List.ext_getElem
    · simp [segments, snake_pop_tail, h]
    · intro i h1 h2
      rw [segments_getElem, List.getElem_tail, segments_getElem]
      exact pop_tail_get s i hpos

theorem pop_tail_wf (s : Snake) (hwf : well_formed s) (h2 : 2 ≤ s.len) :
    well_formed (snake_pop_tail s) := by
  obtain ⟨hb, hl, hc, hh⟩ := hwf
  have h0 : ¬ s.len = 0 := by omega
  simp only [snake_pop_tail, h0, if_false]
  refine ⟨hb, by simp; omega, by simp; omega, ?_⟩
  simp only [hh]
  have e1 : (s.tail + 1) % s.capacity + (s.len - 1) - 1
      = (s.tail + 1) % s.capacity + (s.len - 2) := by omega
  rw [e1, Nat.mod_add_mod]
  congr 1
  omega

/-! ## The paths of `snake_game_update` -/

theorem tick_start_snake (env : Env) (g : SnakeGame) : (tick_start env g).snake = g.snake := by
  unfold tick_start resolve_direction; split <;> rfl

theorem tick_start_food (env : Env) (g : SnakeGame) : (tick_start env g).food = g.food := by
  unfold tick_start resolve_direction; split <;> rfl

theorem tick_start_score (env : Env) (g : SnakeGame) : (tick_start env g).score = g.score := by
  unfold tick_start resolve_direction; split <;> rfl

theorem tick_start_speed (env : Env) (g : SnakeGame) :
    (tick_start env g).game_speed = g.game_speed := by
  unfold tick_start resolve_direction; split <;> rfl

theorem tick_start_running (env : Env) (g : SnakeGame) :
    (tick_start env g).running = g.running := by
  unfold tick_start resolve_direction; split <;> rfl

theorem tick_start_direction (env : Env) (g : SnakeGame) :
    (tick_start env g).curr_snake_direction = (resolve_direction g).curr_snake_direction := by
  unfold tick_start resolve_direction; split <;> rfl

theorem point_eq_iff (p q : Point) : (p.x = q.x ∧ p.y = q.y) ↔ p = q := by
  cases p; cases q; simp

theorem update_not_due (env : Env) (g : SnakeGame)
    (h : u64_sub env.ticks_gate g.last_move_time < g.game_speed) :
    snake_game_update env g = some g := by
  simp [snake_game_update, h]

theorem update_idle (env : Env) (g : SnakeGame)
    (hdue : ¬ u64_sub env.ticks_gate g.last_move_time < g.game_speed)
    (hdir : (tick_start env g).curr_snake_direction = .NONE) :
    snake_game_update env g = some (tick_start env g) := by
  unfold tick_start at hdir
  simp [snake_game_update, hdue, hdir, tick_start]

theorem update_hit (env : Env) (g : SnakeGame) (s : Snake) (cand : Point)
    (hdue : ¬ u64_sub env.ticks_gate g.last_move_time < g.game_speed)
    (hs : g.snake = some s)
    (hcand : candidate_head (tick_start env g).curr_snake_direction
      (body_read s.body s.head) = some cand)
    (hhit : hits_body s cand = true) :
    snake_game_update env g = snake_game_setup env (tick_start env g) := by
  have hdir : (tick_start env g).curr_snake_direction ≠ .NONE := by
    intro h; rw [h] at hcand; simp [candidate_head] at hcand
  have hs' : (tick_start env g).snake = some s := by rw [tick_start_snake, hs]
  unfold tick_start at hdir hcand hs'
  simp [snake_game_update, hdue, hdir, hs', hcand, hhit, tick_start]

theorem update_push_failed (env : Env) (g : SnakeGame) (s s' : Snake) (cand : Point)
    (hdue : ¬ u64_sub env.ticks_gate g.last_move_time < g.game_speed)
    (hs : g.snake = some s)
    (hcand : candidate_head (tick_start env g).curr_snake_direction
      (body_read s.body s.head) = some cand)
    (hhit : hits_body s cand = false)
    (hpush : snake_push_head env.malloc_grow s cand = (false, s')) :
    snake_game_update env g = some { tick_start env g with running := false } := by
  have hdir : (tick_start env g).curr_snake_direction ≠ .NONE := by
    intro h; rw [h] at hcand; simp [candidate_head] at hcand
  have hs' : (tick_start env g).snake = some s := by rw [tick_start_snake, hs]
  unfold tick_start at hdir hcand hs'
  simp [snake_game_update, hdue, hdir, hs', hcand, hhit, hpush, tick_start]

theorem update_eat (env : Env) (g : SnakeGame) (s s' : Snake) (cand : Point)
    (hdue : ¬ u64_sub env.ticks_gate g.last_move_time < g.game_speed)
    (hs : g.snake = some s)
    (hcand : candidate_head (tick_start env g).curr_snake_direction
      (body_read s.body s.head) = some cand)
    (hhit : hits_body s cand = false)
    (hpush : snake_push_head env.malloc_grow s cand = (true, s'))
    (hfood : cand = g.food) :
    snake_game_update env g =
      snake_game_spawn_food env.fuel env.rand (after_eating (tick_start env g) s') := by
  have hdir : (tick_start env g).curr_snake_direction ≠ .NONE := by
    intro h; rw [h] at hcand; simp [candidate_head] at hcand
  have hs' : (tick_start env g).snake = some s := by rw [tick_start_snake, hs]
  have hf : cand.x = (tick_start env g).food.x ∧ cand.y = (tick_start env g).food.y := by
    rw [tick_start_food, hfood]; exact ⟨rfl, rfl⟩
  by_cases hsp : (tick_start env g).game_speed > MAX_SPEED <;>
    unfold tick_start at hdir hcand hs' hf hsp <;>
    simp [snake_game_update, hdue, hdir, hs', hcand, hhit, hpush, tick_start, after_eating,
      hf, hsp]

theorem update_move (env : Env) (g : SnakeGame) (s s' : Snake) (cand : Point)
    (hdue : ¬ u64_sub env.ticks_gate g.last_move_time < g.game_speed)
    (hs : g.snake = some s)
    (hcand : candidate_head (tick_start env g).curr_snake_direction
      (body_read s.body s.head) = some cand)
    (hhit : hits_body s cand = false)
    (hpush : snake_push_head env.malloc_grow s cand = (true, s'))
    (hfood : cand ≠ g.food) :
    snake_game_update env g =
      some { tick_start env g with snake := some (snake_pop_tail s') } := by
  have hdir : (tick_start env g).curr_snake_direction ≠ .NONE := by
    intro h; rw [h] at hcand; simp [candidate_head] at hcand
  have hs' : (tick_start env g).snake = some s := by rw [tick_start_snake, hs]
  have hf : ¬ (cand.x = (tick_start env g).food.x ∧ cand.y = (tick_start env g).food.y) := by
    rw [tick_start_food, point_eq_iff]; exact hfood
  unfold tick_start at hdir hcand hs' hf
  simp only [snake_game_update, hdue, if_false, hdir, hs', hcand, hhit, hpush, tick_start]
  simp [hf]

theorem spawn_food_frame (fuel : Nat) (rand : Nat → Nat) (g g' : SnakeGame)
    (h : snake_game_spawn_food fuel rand g = some g') : g' = { g with food := g'.food } := by
  induction fuel generalizing rand g with
  | zero => simp [snake_game_spawn_food] at h
  | succ n ih =>
    unfold snake_game_spawn_food at h
    simp only at h
    split at h
    · exact absurd h (by simp)
    · split at h
      · have := ih _ _ h
        rw [this]
      · cases h; rfl

theorem segments_getElem? (s : Snake) (i : Nat) (h : i < s.len) :
    (segments s)[i]? = some (snake_get_body_part s i) := by
  simp [segments, h]

/-! ## The food loop -/

theorem on_snake_iff (s : Snake) (p : Point) :
    on_snake s p = true ↔ ∃ i, i < s.len ∧ snake_get_body_part s i = p := by
  simp only [on_snake, List.any_eq_true, List.mem_range, decide_eq_true_eq, point_eq_iff]
  constructor
  · rintro ⟨i, hi, h⟩; exact ⟨i, hi, h.symm⟩
  · rintro ⟨i, hi, h⟩; exact ⟨i, hi, h.symm⟩

theorem on_snake_false_iff (s : Snake) (p : Point) :
    on_snake s p = false ↔ ∀ i, i < s.len → snake_get_body_part s i ≠ p := by
  rw [← Bool.not_eq_true, on_snake_iff]
  push_neg
  rfl

theorem on_snake_iff_mem (s : Snake) (p : Point) : on_snake s p = true ↔ p ∈ segments s := by
  rw [on_snake_iff]
  simp [segments]

theorem food_sample_shift (rand : Nat → Nat) (k : Nat) :
    food_sample (fun i => rand (i + 2)) k = food_sample rand (k + 1) := by
  simp only [food_sample]
  have e1 : 2 * k + 2 = 2 * (k + 1) := by ring
  have e2 : 2 * k + 1 + 2 = 2 * (k + 1) + 1 := by ring
  rw [e1, e2]

theorem food_sample_in_grid (rand : Nat → Nat) (k : Nat) : in_grid (food_sample rand k) := by
  have hpos : (0 : Int) < GRID_SIZE := by decide
  simp only [in_grid, food_sample]
  refine ⟨?_, ?_, ?_, ?_⟩
  · exact Int.tmod_nonneg _ (Int.ofNat_nonneg _)
  · exact Int.tmod_lt_of_pos _ hpos
  · exact Int.tmod_nonneg _ (Int.ofNat_nonneg _)
  · exact Int.tmod_lt_of_pos _ hpos

/-- The food loop returns exactly the first sample that is on no segment,
provided that sample is drawn within the observed iterations. -/
theorem spawn_food_iff (fuel : Nat) (rand : Nat → Nat) (g g' : SnakeGame) :
    snake_game_spawn_food fuel rand g = some g' ↔
      ∃ s k, g.snake = some s ∧ k < fuel ∧ on_snake s (food_sample rand k) = false ∧
        (∀ j, j < k → on_snake s (food_sample rand j) = true) ∧
        g' = { g with food := food_sample rand k } := by
  induction fuel generalizing rand g with
  | zero => simp [snake_game_spawn_food]
  | succ n ih =>
    unfold snake_game_spawn_food
    simp only
    cases hs : g.snake with
    | none => simp
    | some s =>
      simp only
      have h0 : (⟨Int.tmod (rand 0) GRID_SIZE, Int.tmod (rand 1) GRID_SIZE⟩ : Point)
          = food_sample rand 0 := rfl
      rw [h0]
      by_cases hon : on_snake s (food_sample rand 0) = true
      · rw [if_pos hon, ih]
        constructor
        · rintro ⟨s', k, hs', hk, hfree, hocc, hg'⟩
          simp only [Option.some.injEq] at hs'
          subst hs'
          refine ⟨s, k + 1, rfl, by omega, ?_, ?_, ?_⟩
          · rw [← food_sample_shift]; exact hfree
          · intro j hj
            cases j with
            | zero => exact hon
            | succ j => rw [← food_sample_shift]; exact hocc j (by omega)
          · rw [hg', food_sample_shift]
        · rintro ⟨s', k, hs', hk, hfree, hocc, hg'⟩
          simp only [Option.some.injEq] at hs'
          subst hs'
          cases k with
          | zero => rw [hfree] at hon; exact absurd hon (by simp)
          | succ k =>
            refine ⟨s, k, rfl, by omega, ?_, ?_, ?_⟩
            · rw [food_sample_shift]; exact hfree
            · intro j hj
              rw [food_sample_shift]; exact hocc (j + 1) (by omega)
            · rw [hg', food_sample_shift]
      · rw [if_neg hon]
        have hoff : on_snake s (food_sample rand 0) = false := by simpa using hon
        constructor
        · intro h
          cases h
          exact ⟨s, 0, rfl, by omega, hoff, by intro j hj; omega, rfl⟩
        · rintro ⟨s', k, hs', hk, hfree, hocc, hg'⟩
          simp only [Option.some.injEq] at hs'
          subst hs'
          cases k with
          | zero => rw [hg']
          | succ k =>
            have := hocc 0 (by omega)
            rw [hoff] at this
            exact absurd this (by simp)

/-- The food loop returns as soon as some observed iteration draws a pair
that is on no segment. -/
theorem spawn_food_returns (fuel : Nat) (rand : Nat → Nat) (g : SnakeGame) (s : Snake)
    (hs : g.snake = some s)
    (h : ∃ k, k < fuel ∧ on_snake s (food_sample rand k) = false) :
    ∃ g', snake_game_spawn_food fuel rand g = some g' := by
  classical
  have hex : ∃ k, on_snake s (food_sample rand k) = false := by
    obtain ⟨k, -, hk⟩ := h
    exact ⟨k, hk⟩
  refine ⟨_, (spawn_food_iff fuel rand g _).mpr
    ⟨s, Nat.find hex, hs, ?_, Nat.find_spec hex, ?_, rfl⟩⟩
  · obtain ⟨k, hk, hfree⟩ := h
    exact lt_of_le_of_lt (Nat.find_min' hex hfree) hk
  · intro j hj
    simpa using Nat.find_min hex hj

/-! ## Setup -/

theorem push_head_reset (m : Option (Nat → Point)) (s : Snake) (p : Point)
    (hcap : 0 < s.capacity) :
    snake_push_head m { s with len := 0, head := 0, tail := 0 } p =
      (true, { s with body := s.body.set 0 p, head := 0, tail := 0, len := 1 }) := by
  have hng : ¬ (0 + 1 > s.capacity) := by omega
  simp [snake_push_head, hng]

theorem reset_snake_segments (s : Snake) (hmem : 0 < s.body.length) :
    segments (reset_snake s) = [grid_center] := by
  have h0 : (0 + 0) % s.capacity = 0 := by simp
  have hr : List.range 1 = [0] := rfl
  simp only [segments, reset_snake, hr, List.map_cons, List.map_nil,
    snake_get_body_part, h0]
  rw [body_read_set_eq _ _ _ hmem]

theorem reset_snake_on_snake (s : Snake) (hmem : 0 < s.body.length)
    (p : Point) : on_snake (reset_snake s) p = true ↔ p = grid_center := by
  rw [on_snake_iff_mem, reset_snake_segments s hmem]
  simp

/-- A setup whose storage exists returns exactly when the food loop draws a
sample other than the centre, and then yields the started game. -/
theorem setup_iff (env : Env) (g g' : SnakeGame) (s0 : Snake)
    (hst : setup_storage env g = some s0) (hcap : 0 < s0.capacity)
    (hmem : 0 < s0.body.length) :
    snake_game_setup env g = some g' ↔
      ∃ k, k < env.fuel ∧ food_sample env.rand k ≠ grid_center ∧
        (∀ j, j < k → food_sample env.rand j = grid_center) ∧
        g' = started env (reset_snake s0) (food_sample env.rand k) := by
  have hpush := push_head_reset env.malloc_grow s0 grid_center hcap
  simp only [grid_center] at hpush
  simp only [snake_game_setup, hst, hpush]
  constructor
  · intro h
    split at h
    · exact absurd h (by simp)
    · rename_i g1 hg1
      rw [spawn_food_iff] at hg1
      obtain ⟨s, k, hs, hk, hfree, hocc, hg1⟩ := hg1
      simp only [Option.some.injEq] at hs
      subst hs
      refine ⟨k, hk, ?_, ?_, ?_⟩
      · intro hc
        have := (reset_snake_on_snake s0 hmem _).mpr hc
        simp only [reset_snake, grid_center] at this
        rw [this] at hfree
        exact absurd hfree (by simp)
      · intro j hj
        exact (reset_snake_on_snake s0 hmem _).mp (hocc j hj)
      · cases h
        rw [hg1]
        rfl
  · rintro ⟨k, hk, hfree, hocc, hg'⟩
    have hsp : snake_game_spawn_food env.fuel env.rand
        { g with snake := some { s0 with body := s0.body.set 0 ⟨GRID_SIZE / 2, GRID_SIZE / 2⟩,
                                         head := 0, tail := 0, len := 1 } }
        = some { g with snake := some (reset_snake s0), food := food_sample env.rand k } := by
      rw [spawn_food_iff]
      refine ⟨reset_snake s0, k, rfl, hk, ?_, ?_, rfl⟩
      · rw [← Bool.not_eq_true, reset_snake_on_snake s0 hmem]
        exact hfree
      · intro j hj
        rw [reset_snake_on_snake s0 hmem]
        exact hocc j hj
    rw [hsp, hg']
    rfl

/-- Whenever some sample within the observed iterations is off the centre, a
setup whose storage exists returns. -/
theorem setup_returns (env : Env) (g : SnakeGame) (s0 : Snake)
    (hst : setup_storage env g = some s0) (hcap : 0 < s0.capacity)
    (hmem : 0 < s0.body.length)
    (h : ∃ k, k < env.fuel ∧ food_sample env.rand k ≠ grid_center) :
    ∃ g', snake_game_setup env g = some g' := by
  classical
  have hex : ∃ k, food_sample env.rand k ≠ grid_center := by
    obtain ⟨k, -, hk⟩ := h
    exact ⟨k, hk⟩
  refine ⟨_, (setup_iff env g _ s0 hst hcap hmem).mpr
    ⟨Nat.find hex, ?_, Nat.find_spec hex, ?_, rfl⟩⟩
  · obtain ⟨k, hk, hne⟩ := h
    exact lt_of_le_of_lt (Nat.find_min' hex hne) hk
  · intro j hj
    exact not_not.mp (Nat.find_min hex hj)

theorem update_null (env : Env) (g : SnakeGame)
    (hdue : ¬ u64_sub env.ticks_gate g.last_move_time < g.game_speed)
    (hdir : (tick_start env g).curr_snake_direction ≠ .NONE) (hs : g.snake = none) :
    snake_game_update env g = none := by
  have hs' : (tick_start env g).snake = none := by rw [tick_start_snake, hs]
  unfold tick_start at hdir hs'
  simp [snake_game_update, hdue, hdir, hs']

theorem resolve_direction_idle (g : SnakeGame) (h : g.next_snake_direction = .NONE) :
    resolve_direction g = g := by
  simp [resolve_direction, h]

/-! ## Cells of the grid -/

theorem grid_index_lt (p : Point) (h : in_grid p) : grid_index p < 900 := by
  obtain ⟨h1, h2, h3, h4⟩ := h
  simp only [GRID_SIZE] at h2 h4
  unfold grid_index
  omega

theorem grid_index_inj (p q : Point) (hp : in_grid p) (hq : in_grid q)
    (h : grid_index p = grid_index q) : p = q := by
  obtain ⟨h1, h2, h3, h4⟩ := hp
  obtain ⟨k1, k2, k3, k4⟩ := hq
  simp only [GRID_SIZE] at h2 h4 k2 k4
  unfold grid_index at h
  cases p with | mk px py =>
  cases q with | mk qx qy =>
  simp only at h1 h2 h3 h4 k1 k2 k3 k4 h
  have hx : px = qx := by omega
  have hy : py = qy := by omega
  rw [hx, hy]

/-- Distinct cells of the grid are at most 900. -/
theorem nodup_in_grid_length (l : List Point) (hn : l.Nodup) (hg : ∀ p ∈ l, in_grid p) :
    l.length ≤ 900 := by
  have h1 : (l.map grid_index).Nodup :=
    List.Nodup.map_on (fun p hp q hq h => grid_index_inj p q (hg p hp) (hg q hq) h) hn
  have h2 : l.map grid_index ⊆ List.range 900 := by
    intro n hn'
    obtain ⟨p, hp, rfl⟩ := List.mem_map.mp hn'
    exact List.mem_range.mpr (grid_index_lt p (hg p hp))
  have h3 := (List.Nodup.subperm h1 h2).length_le
  simpa using h3

theorem candidate_head_in_grid (d : SnakeDirection) (p cand : Point) (hp : in_grid p)
    (h : candidate_head d p = some cand) : in_grid cand := by
  obtain ⟨h1, h2, h3, h4⟩ := hp
  simp only [GRID_SIZE] at h2 h4
  have e1 : Int.tmod (p.y - 1 + 30) 30 = (p.y - 1 + 30) % 30 :=
    Int.tmod_eq_emod (by omega) (by omega)
  have e2 : Int.tmod (p.y + 1) 30 = (p.y + 1) % 30 := Int.tmod_eq_emod (by omega) (by omega)
  have e3 : Int.tmod (p.x - 1 + 30) 30 = (p.x - 1 + 30) % 30 :=
    Int.tmod_eq_emod (by omega) (by omega)
  have e4 : Int.tmod (p.x + 1) 30 = (p.x + 1) % 30 := Int.tmod_eq_emod (by omega) (by omega)
  cases d <;> simp only [candidate_head, GRID_SIZE, e1, e2, e3, e4, Option.some.injEq,
    reduceCtorEq] at h <;> subst h <;>
    simp only [in_grid, GRID_SIZE] <;> refine ⟨?_, ?_, ?_, ?_⟩ <;> omega

/-! ## Segments of a well-formed snake -/

theorem mem_segments (s : Snake) (p : Point) :
    p ∈ segments s ↔ ∃ i, i < s.len ∧ snake_get_body_part s i = p := by
  simp [segments]

theorem mem_segments_tail (s : Snake) (p : Point) :
    p ∈ (segments s).tail ↔ ∃ i, 1 ≤ i ∧ i < s.len ∧ snake_get_body_part s i = p := by
  rw [List.mem_iff_getElem]
  constructor
  · rintro ⟨i, hi, h⟩
    rw [List.getElem_tail, segments_getElem] at h
    rw [List.length_tail, segments_length] at hi
    exact ⟨i + 1, by omega, by omega, h⟩
  · rintro ⟨i, h1, h2, h⟩
    refine ⟨i - 1, by rw [List.length_tail, segments_length]; omega, ?_⟩
    rw [List.getElem_tail, segments_getElem]
    have : i - 1 + 1 = i := by omega
    rw [this]
    exact h

theorem hits_body_iff (s : Snake) (p : Point) :
    hits_body s p = true ↔ ∃ i, 1 ≤ i ∧ i < s.len ∧ snake_get_body_part s i = p := by
  simp only [hits_body, List.any_eq_true, List.mem_range'_1, decide_eq_true_eq, point_eq_iff]
  constructor
  · rintro ⟨i, ⟨h1, h2⟩, h⟩; exact ⟨i, h1, by omega, h.symm⟩
  · rintro ⟨i, h1, h2, h⟩; exact ⟨i, ⟨h1, by omega⟩, h.symm⟩

theorem hits_body_false_iff (s : Snake) (p : Point) :
    hits_body s p = false ↔ p ∉ (segments s).tail := by
  rw [← Bool.not_eq_true, hits_body_iff, mem_segments_tail]

/-- On a well-formed snake the cell at `head` is the last logical segment. -/
theorem head_read_eq_last (s : Snake) (hwf : well_formed s) :
    body_read s.body s.head = snake_get_body_part s (s.len - 1) := by
  obtain ⟨-, hl, -, hh⟩ := hwf
  simp only [snake_get_body_part, hh]
  congr 2
  omega

theorem head_read_mem_segments (s : Snake) (hwf : well_formed s) :
    body_read s.body s.head ∈ segments s := by
  rw [head_read_eq_last s hwf, mem_segments]
  exact ⟨s.len - 1, by have := hwf.2.1; omega, rfl⟩

theorem push_head_tail_lt (m : Option (Nat → Point)) (s s' : Snake) (p : Point)
    (hwf : well_formed s) (ht : s.tail < s.capacity)
    (h : snake_push_head m s p = (true, s')) : s'.tail < s'.capacity := by
  by_cases hroom : s.len < s.capacity
  · rw [push_head_room_eq m s p hwf.2.1 hroom] at h
    cases h
    exact ht
  · have hfull : s.len = s.capacity := by
      have := hwf.2.2.1; omega
    cases m with
    | none =>
      have : s.len + 1 > s.capacity := by omega
      simp [snake_push_head, this] at h
    | some fresh =>
      rw [push_head_full_eq fresh s p hwf.2.1 hfull] at h
      cases h
      simp only
      omega

theorem pop_tail_tail_lt (s : Snake) (hcap : 0 < s.capacity) :
    (snake_pop_tail s).tail < (snake_pop_tail s).capacity ∨ snake_pop_tail s = s := by
  by_cases h : s.len = 0
  · right; simp [snake_pop_tail, h]
  · left
    simp only [snake_pop_tail, h, if_false]
    exact Nat.mod_lt _ hcap

/-! ## The invariant of the game -/

theorem reset_snake_wf (s : Snake) (hcap : 0 < s.capacity)
    (hmem : s.body.length = s.capacity) : well_formed (reset_snake s) := by
  refine ⟨by simpa [reset_snake] using hmem, by simp [reset_snake],
    by simp [reset_snake]; omega, ?_⟩
  simp [reset_snake]

theorem grid_center_in_grid : in_grid grid_center := by decide

theorem inv_setup (env : Env) (g g' : SnakeGame) (s0 : Snake)
    (hst : setup_storage env g = some s0) (hcap : INITIAL_SNAKE_CAP ≤ s0.capacity)
    (hmem : s0.body.length = s0.capacity) (h : snake_game_setup env g = some g') :
    GameInv g' (reset_snake s0) := by
  have hc8 : INITIAL_SNAKE_CAP = 8 := rfl
  have hcap' : 0 < s0.capacity := by omega
  have hmem' : 0 < s0.body.length := by omega
  rw [setup_iff env g g' s0 hst hcap' hmem'] at h
  obtain ⟨k, -, hne, -, rfl⟩ := h
  have hseg := reset_snake_segments s0 hmem'
  exact
    { snake_eq := rfl
      wf := reset_snake_wf s0 hcap' hmem
      tail_lt := hcap'
      cap_ge := hcap
      nodup := by rw [hseg]; simp
      grid := by
        intro p hp
        rw [hseg] at hp
        rw [List.mem_singleton.mp hp]
        exact grid_center_in_grid
      food_free := by
        rw [hseg]
        simpa [started] using hne
      score_len := rfl
      speed_ge := by simp [started, MAX_SPEED, INITIAL_SPEED_MS]
      speed_le := by simp [started]
      speed_step := by simp [started, INITIAL_SPEED_MS, SPEED_INCREMENT]
      no_reverse := fun h => absurd rfl h }

theorem inv_frame (g g' : SnakeGame) (s : Snake) (h : GameInv g s)
    (hsnake : g'.snake = g.snake) (hfood : g'.food = g.food) (hscore : g'.score = g.score)
    (hspeed : g'.game_speed = g.game_speed)
    (hdir : g'.curr_snake_direction ≠ .NONE →
      g'.next_snake_direction ≠ opposite g'.curr_snake_direction) :
    GameInv g' s :=
  { snake_eq := by rw [hsnake]; exact h.snake_eq
    wf := h.wf
    tail_lt := h.tail_lt
    cap_ge := h.cap_ge
    nodup := h.nodup
    grid := h.grid
    food_free := by rw [hfood]; exact h.food_free
    score_len := by rw [hscore]; exact h.score_len
    speed_ge := by rw [hspeed]; exact h.speed_ge
    speed_le := by rw [hspeed]; exact h.speed_le
    speed_step := by rw [hspeed]; exact h.speed_step
    no_reverse := hdir }

theorem inv_event (env : Env) (e : Event) (g g' : SnakeGame) (s : Snake) (h : GameInv g s)
    (he : snake_game_handle_event env e g = some g') : ∃ s', GameInv g' s' := by
  have hst : setup_storage env g = some s := by simp [setup_storage, h.snake_eq]
  cases e with
  | QUIT =>
    simp only [snake_game_handle_event, Option.some.injEq] at he
    subst he
    exact ⟨s, inv_frame _ _ s h rfl rfl rfl rfl h.no_reverse⟩
  | OTHER =>
    simp only [snake_game_handle_event, Option.some.injEq] at he
    subst he
    exact ⟨s, h⟩
  | KEY_DOWN key =>
    cases key with
    | R => exact ⟨_, inv_setup env g g' s hst h.cap_ge h.wf.1 he⟩
    | Q =>
      simp only [snake_game_handle_event, Option.some.injEq] at he
      subst he
      exact ⟨s, inv_frame _ _ s h rfl rfl rfl rfl h.no_reverse⟩
    | OTHER =>
      simp only [snake_game_handle_event, Option.some.injEq] at he
      subst he
      exact ⟨s, h⟩
    | UP =>
      simp only [snake_game_handle_event] at he
      split at he <;> cases he
      · refine ⟨s, inv_frame _ _ s h rfl rfl rfl rfl ?_⟩
        intro hc
        cases hd : g.curr_snake_direction <;> simp_all [opposite]
      · exact ⟨s, h⟩
    | DOWN =>
      simp only [snake_game_handle_event] at he
      split at he <;> cases he
      · refine ⟨s, inv_frame _ _ s h rfl rfl rfl rfl ?_⟩
        intro hc
        cases hd : g.curr_snake_direction <;> simp_all [opposite]
      · exact ⟨s, h⟩
    | LEFT =>
      simp only [snake_game_handle_event] at he
      split at he <;> cases he
      · refine ⟨s, inv_frame _ _ s h rfl rfl rfl rfl ?_⟩
        intro hc
        cases hd : g.curr_snake_direction <;> simp_all [opposite]
      · exact ⟨s, h⟩
    | RIGHT =>
      simp only [snake_game_handle_event] at he
      split at he <;> cases he
      · refine ⟨s, inv_frame _ _ s h rfl rfl rfl rfl ?_⟩
        intro hc
        cases hd : g.curr_snake_direction <;> simp_all [opposite]
      · exact ⟨s, h⟩

/-- Every returning update went down one of the six paths of the source. -/
theorem update_cases (env : Env) (g g' : SnakeGame) (h : snake_game_update env g = some g') :
    (u64_sub env.ticks_gate g.last_move_time < g.game_speed ∧ g' = g) ∨
    (¬ u64_sub env.ticks_gate g.last_move_time < g.game_speed ∧
      (tick_start env g).curr_snake_direction = .NONE ∧ g' = tick_start env g) ∨
    ∃ s cand, g.snake = some s ∧
      ¬ u64_sub env.ticks_gate g.last_move_time < g.game_speed ∧
      candidate_head (tick_start env g).curr_snake_direction (body_read s.body s.head)
        = some cand ∧
      ((hits_body s cand = true ∧ snake_game_setup env (tick_start env g) = some g') ∨
       (hits_body s cand = false ∧
         ∃ s1, snake_push_head env.malloc_grow s cand = (false, s1) ∧
           g' = { tick_start env g with running := false }) ∨
       (hits_body s cand = false ∧
         ∃ s1, snake_push_head env.malloc_grow s cand = (true, s1) ∧ cand = g.food ∧
           snake_game_spawn_food env.fuel env.rand (after_eating (tick_start env g) s1)
             = some g') ∨
       (hits_body s cand = false ∧
         ∃ s1, snake_push_head env.malloc_grow s cand = (true, s1) ∧ cand ≠ g.food ∧
           g' = { tick_start env g with snake := some (snake_pop_tail s1) })) := by
  by_cases hdue : u64_sub env.ticks_gate g.last_move_time < g.game_speed
  · rw [update_not_due env g hdue] at h
    cases h
    exact Or.inl ⟨hdue, rfl⟩
  · right
    by_cases hdir : (tick_start env g).curr_snake_direction = .NONE
    · rw [update_idle env g hdue hdir] at h
      cases h
      exact Or.inl ⟨hdue, hdir, rfl⟩
    · right
      cases hs : g.snake with
      | none =>
        rw [update_null env g hdue hdir hs] at h
        exact absurd h (by simp)
      | some s =>
        cases hcand : candidate_head (tick_start env g).curr_snake_direction
            (body_read s.body s.head) with
        | none =>
          exfalso
          cases hd : (tick_start env g).curr_snake_direction <;>
            simp_all [candidate_head]
        | some cand =>
          refine ⟨s, cand, rfl, hdue, hcand, ?_⟩
          cases hhit : hits_body s cand with
          | true =>
            rw [update_hit env g s cand hdue hs hcand hhit] at h
            exact Or.inl ⟨rfl, h⟩
          | false =>
            right
            cases hp : snake_push_head env.malloc_grow s cand with
            | mk ok s1 =>
              cases ok with
              | false =>
                rw [update_push_failed env g s s1 cand hdue hs hcand hhit hp] at h
                cases h
                exact Or.inl ⟨rfl, s1, rfl, rfl⟩
              | true =>
                right
                by_cases hfood : cand = g.food
                · rw [update_eat env g s s1 cand hdue hs hcand hhit hp hfood] at h
                  exact Or.inl ⟨rfl, s1, rfl, hfood, h⟩
                · rw [update_move env g s s1 cand hdue hs hcand hhit hp hfood] at h
                  cases h
                  exact Or.inr ⟨rfl, s1, rfl, hfood, rfl⟩

theorem opposite_ne_none (d : SnakeDirection) (h : d ≠ .NONE) : opposite d ≠ .NONE := by
  cases d <;> simp_all [opposite]

theorem tick_start_no_reverse (env : Env) (g : SnakeGame) :
    (tick_start env g).curr_snake_direction ≠ .NONE →
      (tick_start env g).next_snake_direction ≠
        opposite (tick_start env g).curr_snake_direction := by
  intro hc
  have hnext : (tick_start env g).next_snake_direction = .NONE := by
    unfold tick_start resolve_direction
    split
    · rfl
    · rename_i h
      simpa using h
  rw [hnext]
  exact (opposite_ne_none _ hc).symm

theorem inv_tick_start (env : Env) (g : SnakeGame) (s : Snake) (h : GameInv g s) :
    GameInv (tick_start env g) s :=
  inv_frame g _ s h (tick_start_snake env g) (tick_start_food env g) (tick_start_score env g)
    (tick_start_speed env g) (tick_start_no_reverse env g)

theorem inv_len_le (g : SnakeGame) (s : Snake) (h : GameInv g s) : s.len ≤ 900 := by
  have := nodup_in_grid_length (segments s) h.nodup h.grid
  rwa [segments_length] at this

theorem inv_update (env : Env) (g g' : SnakeGame) (s : Snake) (h : GameInv g s)
    (hu : snake_game_update env g = some g') : ∃ s', GameInv g' s' := by
  have h1 := inv_tick_start env g s h
  rcases update_cases env g g' hu with ⟨-, rfl⟩ | ⟨-, -, rfl⟩ |
    ⟨s0, cand, hs, -, hcand, hpath⟩
  · exact ⟨s, h⟩
  · exact ⟨s, h1⟩
  · rw [h.snake_eq] at hs
    cases hs
    have hgrid : in_grid cand :=
      candidate_head_in_grid _ _ cand (h.grid _ (head_read_mem_segments s h.wf)) hcand
    rcases hpath with ⟨-, hset⟩ | ⟨-, s1, -, rfl⟩ | ⟨-, s1, hp, hfood, hsp⟩ |
      ⟨hhit, s1, hp, hfood, rfl⟩
    · have hst : setup_storage env (tick_start env g) = some s := by
        simp [setup_storage, tick_start_snake, h.snake_eq]
      exact ⟨_, inv_setup env _ g' s hst h.cap_ge h.wf.1 hset⟩
    · exact ⟨s, inv_frame _ _ s h1 rfl rfl rfl rfl h1.no_reverse⟩
    · obtain ⟨hwf1, hlen1, hseg1, hcap1⟩ := push_head_ok _ _ _ _ h.wf hp
      have htail1 := push_head_tail_lt _ _ _ _ h.wf h.tail_lt hp
      rw [spawn_food_iff] at hsp
      obtain ⟨s', k, hs', -, hfree, -, rfl⟩ := hsp
      simp only [after_eating, Option.some.injEq] at hs'
      subst hs'
      have hlen := inv_len_le g s h
      have hsl := h.score_len
      refine ⟨s1,
        { snake_eq := rfl
          wf := hwf1
          tail_lt := htail1
          cap_ge := le_trans h.cap_ge hcap1
          nodup := ?_
          grid := ?_
          food_free := ?_
          score_len := ?_
          speed_ge := ?_
          speed_le := ?_
          speed_step := ?_
          no_reverse := h1.no_reverse }⟩
      · rw [hseg1]
        refine List.Nodup.append h.nodup (by simp) ?_
        intro p hp1 hp2
        rw [List.mem_singleton] at hp2
        subst hp2
        rw [hfood] at hp1
        exact h.food_free hp1
      · intro p hp1
        rw [hseg1, List.mem_append, List.mem_singleton] at hp1
        rcases hp1 with hp1 | rfl
        · exact h.grid p hp1
        · exact hgrid
      · intro hmem
        have := (on_snake_iff_mem s1 _).mpr hmem
        rw [hfree] at this
        exact absurd this (by simp)
      · simp only [after_eating, tick_start_score]
        rw [Nat.mod_eq_of_lt (by omega)]
        omega
      · have a := h.speed_ge
        have b := h.speed_step
        simp only [after_eating, tick_start_speed, MAX_SPEED, SPEED_INCREMENT] at *
        split <;> omega
      · have a := h.speed_le
        simp only [after_eating, tick_start_speed, MAX_SPEED, SPEED_INCREMENT,
          INITIAL_SPEED_MS] at *
        split <;> omega
      · have a := h.speed_ge
        have b := h.speed_step
        simp only [after_eating, tick_start_speed, MAX_SPEED, SPEED_INCREMENT] at *
        split <;> omega
    · obtain ⟨hwf1, hlen1, hseg1, hcap1⟩ := push_head_ok _ _ _ _ h.wf hp
      have htail1 := push_head_tail_lt _ _ _ _ h.wf h.tail_lt hp
      have hl := h.wf.2.1
      have hne : segments s ≠ [] := by
        intro hnil
        have := congrArg List.length hnil
        rw [segments_length] at this
        simp at this
        omega
      have hseg2 : segments (snake_pop_tail s1) = (segments s).tail ++ [cand] := by
        rw [pop_tail_segments, hseg1, List.tail_append_of_ne_nil hne]
      have hn0 : ¬ s1.len = 0 := by omega
      have hcap0 : 0 < s1.capacity := by
        have := h.cap_ge
        have : INITIAL_SNAKE_CAP = 8 := rfl
        omega
      refine ⟨snake_pop_tail s1,
        { snake_eq := rfl
          wf := pop_tail_wf s1 hwf1 (by omega)
          tail_lt := ?_
          cap_ge := ?_
          nodup := ?_
          grid := ?_
          food_free := ?_
          score_len := ?_
          speed_ge := h1.speed_ge
          speed_le := h1.speed_le
          speed_step := h1.speed_step
          no_reverse := h1.no_reverse }⟩
      · simp only [snake_pop_tail, hn0, if_false]
        exact Nat.mod_lt _ hcap0
      · simp only [snake_pop_tail, hn0, if_false]
        exact le_trans h.cap_ge hcap1
      · rw [hseg2]
        refine List.Nodup.append (List.Nodup.sublist (List.tail_sublist _) h.nodup)
          (by simp) ?_
        intro p hp1 hp2
        rw [List.mem_singleton] at hp2
        subst hp2
        exact (hits_body_false_iff s p).mp hhit hp1
      · intro p hp1
        rw [hseg2, List.mem_append, List.mem_singleton] at hp1
        rcases hp1 with hp1 | rfl
        · exact h.grid p (List.mem_of_mem_tail hp1)
        · exact hgrid
      · rw [hseg2, List.mem_append, List.mem_singleton]
        rintro (hm | hm)
        · exact h.food_free (by rw [tick_start_food] at hm; exact List.mem_of_mem_tail hm)
        · rw [tick_start_food] at hm
          exact hfood hm.symm
      · simp only [snake_pop_tail, hn0, if_false, tick_start_score]
        have := h.score_len
        omega

theorem reachable_inv (g : SnakeGame) (h : Reachable g) : ∃ s, GameInv g s := by
  induction h with
  | setup env g hset hrun =>
    cases hst : setup_storage env snake_game_init with
    | none =>
      simp only [snake_game_setup, hst, Option.some.injEq] at hset
      subst hset
      exact absurd hrun (by simp)
    | some s0 =>
      have hs0 : INITIAL_SNAKE_CAP ≤ s0.capacity ∧ s0.body.length = s0.capacity := by
        simp only [setup_storage, snake_game_init] at hst
        split at hst
        · split at hst
          · exact absurd hst (by simp)
          · cases hst
            exact ⟨le_refl _, by simp⟩
        · exact absurd hst (by simp)
      exact ⟨_, inv_setup env _ g s0 hst hs0.1 hs0.2 hset⟩
  | event env e g g' _ he ih =>
    obtain ⟨s, hs⟩ := ih
    exact inv_event env e g g' s hs he
  | tick env g g' _ hu ih =>
    obtain ⟨s, hs⟩ := ih
    exact inv_update env g g' s hs hu

/-! ## Plays -/

theorem reachable_play (steps : List Step) (g g' : SnakeGame) (hg : Reachable g)
    (h : play steps g = some g') : Reachable g' := by
  induction steps generalizing g with
  | nil =>
    simp only [play, Option.some.injEq] at h
    subst h
    exact hg
  | cons step rest ih =>
    cases step with
    | event env e =>
      simp only [play] at h
      split at h
      · exact absurd h (by simp)
      · rename_i g1 h1
        exact ih g1 (Reachable.event env e g g1 hg h1) h
    | tick env =>
      simp only [play] at h
      split at h
      · exact absurd h (by simp)
      · rename_i g1 h1
        exact ih g1 (Reachable.tick env g g1 hg h1) h

theorem hook_game_reachable : Reachable hook_game :=
  reachable_play hook_steps hook_start hook_game
    (Reachable.setup (world 1000 15 14) hook_start (by decide) rfl) (by decide)

/-! ## Sequences of pushes and pops -/

theorem push_head_empty_eq (m : Option (Nat → Point)) (s : Snake) (p : Point)
    (hlen : s.len = 0) (hcap : 0 < s.capacity) :
    snake_push_head m s p = (true, { s with body := s.body.set s.head p, len := 1 }) := by
  have hng : ¬ (s.len + 1 > s.capacity) := by omega
  have hpos : ¬ (s.len > 0) := by omega
  simp only [snake_push_head, hng, if_false, hpos]
  simp [hlen]

theorem store_ok_push (fresh : Nat → Point) (s : Snake) (p : Point) (h : store_ok s) :
    store_ok (snake_push_head (some fresh) s p).2 ∧
      segments (snake_push_head (some fresh) s p).2 = segments s ++ [p] := by
  obtain ⟨hb, hc, ht, hl, he, hh⟩ := h
  by_cases hlen : s.len = 0
  · rw [push_head_empty_eq _ s p hlen hc]
    have hhead := he hlen
    have hseg : segments s = [] := by simp [segments, hlen]
    have hr : List.range 1 = [0] := rfl
    refine ⟨⟨by simpa using hb, hc, ht, by simp; omega, by simp, ?_⟩, ?_⟩
    · intro _
      simp only [Nat.add_sub_cancel]
      rw [hhead, Nat.mod_eq_of_lt ht]
    · rw [hseg]
      simp only [segments, hr, List.map_cons, List.map_nil, snake_get_body_part,
        Nat.add_zero, List.nil_append, hhead, Nat.mod_eq_of_lt ht]
      rw [body_read_set_eq _ _ _ (by omega)]
  · have hwf : well_formed s := ⟨hb, by omega, hl, hh (by omega)⟩
    have hok : (snake_push_head (some fresh) s p).1 = true := by
      by_cases hroom : s.len < s.capacity
      · rw [push_head_room_eq _ s p hwf.2.1 hroom]
      · rw [push_head_full_eq fresh s p hwf.2.1 (by omega)]
    have hp : snake_push_head (some fresh) s p =
        (true, (snake_push_head (some fresh) s p).2) := by rw [← hok]
    obtain ⟨hwf1, hlen1, hseg1, hcap1⟩ := push_head_ok _ _ _ _ hwf hp
    have htail1 := push_head_tail_lt _ _ _ _ hwf ht hp
    exact ⟨⟨hwf1.1, by omega, htail1, hwf1.2.2.1, by omega, fun _ => hwf1.2.2.2⟩, hseg1⟩

theorem store_ok_pop (s : Snake) (h : store_ok s) (h1 : s.len ≠ 1) :
    store_ok (snake_pop_tail s) := by
  obtain ⟨hb, hc, ht, hl, he, hh⟩ := h
  by_cases hlen : s.len = 0
  · simp only [snake_pop_tail, hlen, if_true]
    exact ⟨hb, hc, ht, hl, he, hh⟩
  · have hwf : well_formed s := ⟨hb, by omega, hl, hh (by omega)⟩
    have hwf1 := pop_tail_wf s hwf (by omega)
    have hcap : (snake_pop_tail s).capacity = s.capacity := by
      simp [snake_pop_tail, hlen]
    have ht1 : (snake_pop_tail s).tail < (snake_pop_tail s).capacity := by
      simp only [snake_pop_tail, hlen, if_false]
      exact Nat.mod_lt _ hc
    exact ⟨hwf1.1, by omega, ht1, hwf1.2.2.1, fun h0 => absurd hwf1.2.1 (by omega),
      fun _ => hwf1.2.2.2⟩

theorem store_ok_run (fresh : Nat → Point) (ops : List SnakeOp) (s : Snake)
    (h : store_ok s) (hk : pops_keep_one (segments s) ops) :
    segments (run_ops fresh s ops) = ops.foldl reference_op (segments s) := by
  induction ops generalizing s with
  | nil => rfl
  | cons op rest ih =>
    cases op with
    | push_head p =>
      obtain ⟨hok, hseg⟩ := store_ok_push fresh s p h
      simp only [pops_keep_one] at hk
      rw [← hseg] at hk
      have := ih _ hok hk
      simp only [run_ops, List.foldl_cons, apply_op, reference_op] at this ⊢
      rw [this, hseg]
    | pop_tail =>
      simp only [pops_keep_one] at hk
      have h1 : s.len ≠ 1 := by
        have := hk.1
        rwa [segments_length] at this
      have hok := store_ok_pop s h h1
      have hk2 := hk.2
      rw [← pop_tail_segments] at hk2
      have := ih _ hok hk2
      simp only [run_ops, List.foldl_cons, apply_op, reference_op] at this ⊢
      rw [this, pop_tail_segments]

/-- As long as no pop removes the last segment, the body store follows the
reference list through any number of growths: the logical sequence is the
list and `len` is its length. -/
theorem ring_buffer_refines_list (fresh mem : Nat → Point) (ops : List SnakeOp)
    (hk : pops_keep_one [] ops) :
    segments (run_ops fresh (empty_snake mem) ops) = reference_ops ops ∧
    (run_ops fresh (empty_snake mem) ops).len = (reference_ops ops).length ∧
    ∀ i, i < (run_ops fresh (empty_snake mem) ops).len →
      (reference_ops ops)[i]? =
        some (snake_get_body_part (run_ops fresh (empty_snake mem) ops) i) := by
  have h0 : store_ok (empty_snake mem) := by
    refine ⟨by simp [empty_snake], by simp [empty_snake, INITIAL_SNAKE_CAP],
      by simp [empty_snake, INITIAL_SNAKE_CAP], by simp [empty_snake], fun _ => rfl, ?_⟩
    intro h
    simp [empty_snake] at h
  have hs0 : segments (empty_snake mem) = [] := rfl
  have hseg := store_ok_run fresh ops (empty_snake mem) h0 (by rw [hs0]; exact hk)
  rw [hs0] at hseg
  refine ⟨hseg, ?_, ?_⟩
  · rw [← segments_length, hseg]
    rfl
  · intro i hi
    have := segments_getElem? _ i hi
    rw [hseg] at this
    exact this

theorem store_bounds_push (fresh : Nat → Point) (s : Snake) (p : Point)
    (h : store_bounds s) :
    store_bounds (snake_push_head (some fresh) s p).2 ∧
      s.capacity ≤ (snake_push_head (some fresh) s p).2.capacity ∧
      body_read (snake_push_head (some fresh) s p).2.body
        (snake_push_head (some fresh) s p).2.head = p ∧
      (snake_push_head (some fresh) s p).2.len = s.len + 1 := by
  obtain ⟨hb, hl, hh, ht, k, hk⟩ := h
  have hpow : 0 < 2 ^ k := Nat.pow_pos (by decide)
  have hc : 0 < s.capacity := by omega
  by_cases hlen : s.len = 0
  · rw [push_head_empty_eq _ s p hlen hc]
    refine ⟨⟨by simpa using hb, by simp; omega, hh, ht, k, hk⟩, le_refl _, ?_, by simp [hlen]⟩
    exact body_read_set_eq _ _ _ (by omega)
  · by_cases hroom : s.len < s.capacity
    · rw [push_head_room_eq _ s p (by omega) hroom]
      have hlt : (s.head + 1) % s.capacity < s.capacity := Nat.mod_lt _ hc
      refine ⟨⟨by simpa using hb, by simp; omega, hlt, ht, k, hk⟩, le_refl _, ?_, rfl⟩
      exact body_read_set_eq _ _ _ (by omega)
    · rw [push_head_full_eq fresh s p (by omega) (by omega)]
      refine ⟨⟨by simp, by simp; omega, by simp; omega, by simp; omega, k + 1, ?_⟩,
        by simp only; omega, ?_, rfl⟩
      · simp only [hk, pow_succ]
        ring
      · exact body_read_set_eq _ _ _ (by simp; omega)

theorem store_bounds_pop (s : Snake) (h : store_bounds s) :
    store_bounds (snake_pop_tail s) ∧ (snake_pop_tail s).capacity = s.capacity ∧
      (snake_pop_tail s).body = s.body ∧ (snake_pop_tail s).head = s.head := by
  obtain ⟨hb, hl, hh, ht, k, hk⟩ := h
  have hpow : 0 < 2 ^ k := Nat.pow_pos (by decide)
  have hc : 0 < s.capacity := by omega
  by_cases hlen : s.len = 0
  · have e : snake_pop_tail s = s := by simp [snake_pop_tail, hlen]
    rw [e]
    exact ⟨⟨hb, hl, hh, ht, k, hk⟩, rfl, rfl, rfl⟩
  · have e : snake_pop_tail s =
        { s with tail := (s.tail + 1) % s.capacity, len := s.len - 1 } := by
      simp [snake_pop_tail, hlen]
    rw [e]
    exact ⟨⟨hb, by simp only; omega, hh, Nat.mod_lt _ hc, k, hk⟩, rfl, rfl, rfl⟩

theorem store_bounds_run (fresh : Nat → Point) (ops : List SnakeOp) (s : Snake)
    (h : store_bounds s) :
    store_bounds (run_ops fresh s ops) ∧ s.capacity ≤ (run_ops fresh s ops).capacity ∧
      body_read (run_ops fresh s ops).body (run_ops fresh s ops).head
        = last_pushed (body_read s.body s.head) ops := by
  induction ops generalizing s with
  | nil => exact ⟨h, le_refl _, rfl⟩
  | cons op rest ih =>
    cases op with
    | push_head p =>
      obtain ⟨hb, hcap, hread, -⟩ := store_bounds_push fresh s p h
      obtain ⟨h1, h2, h3⟩ := ih _ hb
      simp only [run_ops, List.foldl_cons, apply_op, last_pushed] at h1 h2 h3 ⊢
      exact ⟨h1, le_trans hcap h2, by rw [h3, hread]⟩
    | pop_tail =>
      obtain ⟨hb, hcap, hbody, hhead⟩ := store_bounds_pop s h
      obtain ⟨h1, h2, h3⟩ := ih _ hb
      simp only [run_ops, List.foldl_cons, apply_op, last_pushed] at h1 h2 h3 ⊢
      exact ⟨h1, by omega, by rw [h3, hbody, hhead]⟩

/-- After any sequence of pushes and pops on the empty capacity-8 snake:
`body` addresses `capacity` cells, `len <= capacity`, `head, tail < capacity`,
the capacity is 8 times a power of two and has not shrunk along the way, and
the cell at `head` holds the point of the last push, if there was one. -/
theorem run_ops_bounds (fresh mem : Nat → Point) (ops more : List SnakeOp) :
    store_bounds (run_ops fresh (empty_snake mem) ops) ∧
    (run_ops fresh (empty_snake mem) ops).capacity
      ≤ (run_ops fresh (empty_snake mem) (ops ++ more)).capacity ∧
    body_read (run_ops fresh (empty_snake mem) ops).body
      (run_ops fresh (empty_snake mem) ops).head = last_pushed (mem 0) ops := by
  have h0 : store_bounds (empty_snake mem) :=
    ⟨by simp [empty_snake], by simp [empty_snake], by simp [empty_snake, INITIAL_SNAKE_CAP],
      by simp [empty_snake, INITIAL_SNAKE_CAP], 0, rfl⟩
  obtain ⟨h1, -, h3⟩ := store_bounds_run fresh ops (empty_snake mem) h0
  refine ⟨h1, ?_, ?_⟩
  · have : run_ops fresh (empty_snake mem) (ops ++ more)
        = run_ops fresh (run_ops fresh (empty_snake mem) ops) more := by
      simp [run_ops, List.foldl_append]
    rw [this]
    exact (store_bounds_run fresh more _ h1).2.1
  · rw [h3]
    rfl

/-! ## The collision loop -/

/-- A due tick without a hit goes on with the push, whatever its outcome. -/
theorem update_no_hit (env : Env) (g : SnakeGame) (s : Snake) (cand : Point)
    (hdue : ¬ u64_sub env.ticks_gate g.last_move_time < g.game_speed)
    (hs : g.snake = some s)
    (hcand : candidate_head (tick_start env g).curr_snake_direction
      (body_read s.body s.head) = some cand)
    (hhit : hits_body s cand = false) :
    snake_game_update env g =
      match snake_push_head env.malloc_grow s cand with
      | (false, _) => some { tick_start env g with running := false }
      | (true, s1) =>
        if cand = g.food then
          snake_game_spawn_food env.fuel env.rand (after_eating (tick_start env g) s1)
        else some { tick_start env g with snake := some (snake_pop_tail s1) } := by
  cases hp : snake_push_head env.malloc_grow s cand with
  | mk ok s1 =>
    cases ok with
    | false => exact update_push_failed env g s s1 cand hdue hs hcand hhit hp
    | true =>
      by_cases hfood : cand = g.food
      · simp only [hfood, if_true]
        exact update_eat env g s s1 cand hdue hs hcand hhit hp hfood
      · simp only [hfood, if_false]
        exact update_move env g s s1 cand hdue hs hcand hhit hp hfood

/-- A due tick without a hit keeps the resolved direction as the current one. -/
theorem update_no_hit_direction (env : Env) (g g' : SnakeGame) (s : Snake) (cand : Point)
    (hdue : ¬ u64_sub env.ticks_gate g.last_move_time < g.game_speed)
    (hs : g.snake = some s)
    (hcand : candidate_head (tick_start env g).curr_snake_direction
      (body_read s.body s.head) = some cand)
    (hhit : hits_body s cand = false) (h : snake_game_update env g = some g') :
    g'.curr_snake_direction = (tick_start env g).curr_snake_direction ∧
    g'.next_snake_direction = (tick_start env g).next_snake_direction ∧
    g'.last_move_time = (tick_start env g).last_move_time := by
  rw [update_no_hit env g s cand hdue hs hcand hhit] at h
  split at h
  · cases h
    exact ⟨rfl, rfl, rfl⟩
  · split at h
    · rw [spawn_food_frame _ _ _ _ h]
      exact ⟨rfl, rfl, rfl⟩
    · cases h
      exact ⟨rfl, rfl, rfl⟩

theorem candidate_head_ne_none (d : SnakeDirection) (p cand : Point)
    (h : candidate_head d p = some cand) : d ≠ .NONE := by
  intro hd
  rw [hd] at h
  simp [candidate_head] at h

/-! ## Termination of the food loop -/

theorem food_sample_stream_at (p : Point) (hp : in_grid p) :
    food_sample (stream_at p) 0 = p := by
  obtain ⟨h1, h2, h3, h4⟩ := hp
  cases p with
  | mk px py =>
    simp only at h1 h2 h3 h4
    simp only [food_sample, stream_at, Nat.mul_zero, Nat.zero_add, if_true,
      Nat.one_ne_zero, if_false, Int.toNat_of_nonneg h1, Int.toNat_of_nonneg h3,
      Int.tmod_eq_of_lt h1 h2, Int.tmod_eq_of_lt h3 h4]

theorem spawn_terminates_iff (rand : Nat → Nat) (g : SnakeGame) (s : Snake)
    (hs : g.snake = some s) :
    spawn_terminates rand g ↔ ∃ k, on_snake s (food_sample rand k) = false := by
  constructor
  · rintro ⟨fuel, g', h⟩
    obtain ⟨s', k, hs', -, hfree, -, -⟩ := (spawn_food_iff fuel rand g g').mp h
    rw [hs] at hs'
    cases hs'
    exact ⟨k, hfree⟩
  · rintro ⟨k, hfree⟩
    obtain ⟨g', hg'⟩ := spawn_food_returns (k + 1) rand g s hs ⟨k, by omega, hfree⟩
    exact ⟨k + 1, g', hg'⟩

/-! ## Direction changes -/

theorem opposite_ne_self (d : SnakeDirection) (h : d ≠ .NONE) : d ≠ opposite d := by
  cases d <;> simp_all [opposite]

theorem reachable_handle_events (events : List (Env × Event)) (g g' : SnakeGame)
    (hg : Reachable g) (h : snake_game_handle_events events g = some g') : Reachable g' := by
  induction events generalizing g with
  | nil =>
    simp only [snake_game_handle_events, Option.some.injEq] at h
    subst h
    exact hg
  | cons ev rest ih =>
    obtain ⟨env, e⟩ := ev
    simp only [snake_game_handle_events] at h
    split at h
    · exact absurd h (by simp)
    · rename_i g1 h1
      exact ih g1 (Reachable.event env e g g1 hg h1) h

/-- No update turns the current direction of a game in play into its
opposite. -/
theorem update_no_reversal (env : Env) (g g' : SnakeGame) (s : Snake) (hinv : GameInv g s)
    (hu : snake_game_update env g = some g') (hd : g.curr_snake_direction ≠ .NONE) :
    g'.curr_snake_direction ≠ opposite g.curr_snake_direction := by
  have hstart : (tick_start env g).curr_snake_direction ≠ opposite g.curr_snake_direction := by
    rw [tick_start_direction]
    unfold resolve_direction
    split
    · exact hinv.no_reverse hd
    · exact opposite_ne_self _ hd
  rcases update_cases env g g' hu with ⟨-, rfl⟩ | ⟨-, -, rfl⟩ |
    ⟨s0, cand, hs, hdue, hcand, hpath⟩
  · exact opposite_ne_self _ hd
  · exact hstart
  · rw [hinv.snake_eq] at hs
    cases hs
    rcases hpath with ⟨-, hset⟩ | ⟨hhit, s1, hp, rfl⟩ | ⟨hhit, s1, hp, hfood, hsp⟩ |
      ⟨hhit, s1, hp, hfood, rfl⟩
    · have hst : setup_storage env (tick_start env g) = some s := by
        simp [setup_storage, tick_start_snake, hinv.snake_eq]
      have hc8 : INITIAL_SNAKE_CAP = 8 := rfl
      have hcap := hinv.cap_ge
      have hmem := hinv.wf.1
      rw [setup_iff env _ g' s hst (by omega) (by omega)] at hset
      obtain ⟨k, -, -, -, rfl⟩ := hset
      exact (opposite_ne_none _ hd).symm
    · exact hstart
    · rw [spawn_food_frame _ _ _ _ hsp]
      exact hstart
    · exact hstart

theorem tick_start_time (env : Env) (g : SnakeGame) :
    (tick_start env g).last_move_time = env.ticks_move := by
  unfold tick_start resolve_direction; split <;> rfl

theorem tick_start_next (env : Env) (g : SnakeGame) :
    (tick_start env g).next_snake_direction = .NONE := by
  unfold tick_start resolve_direction
  split
  · rfl
  · rename_i h
    simpa using h

/-! ## Moves on a grid of any size -/

theorem candidate_head_on_grid_size (d : SnakeDirection) (p : Point) :
    candidate_head_on GRID_SIZE d p = candidate_head d p := by
  cases d <;> rfl

theorem spawn_food_on_grid_size (fuel : Nat) (rand : Nat → Nat) (g : SnakeGame) :
    snake_game_spawn_food_on GRID_SIZE fuel rand g = snake_game_spawn_food fuel rand g := by
  induction fuel generalizing rand g with
  | zero => rfl
  | succ n ih =>
    unfold snake_game_spawn_food_on snake_game_spawn_food
    simp only [ih]

theorem setup_on_grid_size (env : Env) (g : SnakeGame) :
    snake_game_setup_on GRID_SIZE env g = snake_game_setup env g := by
  unfold snake_game_setup_on snake_game_setup
  simp only [spawn_food_on_grid_size]

theorem update_on_grid_size (env : Env) (g : SnakeGame) :
    snake_game_update_on GRID_SIZE env g = snake_game_update env g := by
  unfold snake_game_update_on snake_game_update
  simp only [candidate_head_on_grid_size, setup_on_grid_size, spawn_food_on_grid_size]

/-- One due update of a one-segment snake at `(x, y)` heading right with
nothing pending, when the cell to the right is not the food: the snake is
again one segment, at `((x + 1) mod G, y)`, and nothing else but the stamp
changes. -/
theorem update_on_right_step (G : Int) (hG : 0 < G) (env : Env) (g : SnakeGame) (s : Snake)
    (x y : Int) (hx : 0 ≤ x) (hs : g.snake = some s) (hwf : well_formed s)
    (hlen : s.len = 1) (hcap : 2 ≤ s.capacity)
    (hat : snake_get_body_part s 0 = ⟨x, y⟩)
    (hcurr : g.curr_snake_direction = .RIGHT) (hnext : g.next_snake_direction = .NONE)
    (hdue : ¬ u64_sub env.ticks_gate g.last_move_time < g.game_speed)
    (hfood : g.food ≠ ⟨(x + 1) % G, y⟩) :
    ∃ s', snake_game_update_on G env g =
        some { g with last_move_time := env.ticks_move, snake := some s' } ∧
      well_formed s' ∧ s'.len = 1 ∧ s'.capacity = s.capacity ∧
      snake_get_body_part s' 0 = ⟨(x + 1) % G, y⟩ := by
  have hhead : body_read s.body s.head = ⟨x, y⟩ := by
    rw [head_read_eq_last s hwf, hlen]
    exact hat
  have hmod : Int.tmod (x + 1) G = (x + 1) % G :=
    Int.tmod_eq_emod (by omega) (by omega)
  have hroom : s.len < s.capacity := by omega
  obtain ⟨s1, hp, hwf1, hlen1, hcap1, -, -, hnew⟩ :=
    push_head_room env.malloc_grow s ⟨(x + 1) % G, y⟩ hwf hroom
  have hhit : hits_body s ⟨(x + 1) % G, y⟩ = false := by
    simp [hits_body, hlen]
  have hn0 : ¬ s1.len = 0 := by omega
  refine ⟨snake_pop_tail s1, ?_, pop_tail_wf s1 hwf1 (by omega), ?_, ?_, ?_⟩
  · have hres : resolve_direction { g with last_move_time := env.ticks_move }
        = { g with last_move_time := env.ticks_move } := by
      simp [resolve_direction, hnext]
    have hf : ¬ ((x + 1) % G = g.food.x ∧ y = g.food.y) := by
      intro h
      apply hfood
      cases hgf : g.food with
      | mk fx fy =>
        rw [hgf] at h
        simp only at h
        rw [h.1, h.2]
    simp only [snake_game_update_on, hdue, if_false, hres]
    simp [hcurr, hs, candidate_head_on, hhead, hmod, hhit, hp, hf]
  · simp only [snake_pop_tail, hn0, if_false]
    omega
  · simp only [snake_pop_tail, hn0, if_false]
    exact hcap1
  · rw [pop_tail_get s1 0 (by omega)]
    rw [hlen] at hnew
    exact hnew

theorem run_ticks_on_right (G : Int) (hG : 0 < G) (envs : List Env) (g : SnakeGame)
    (s : Snake) (x y : Int) (hx : 0 ≤ x) (hxG : x < G) (hs : g.snake = some s)
    (hwf : well_formed s) (hlen : s.len = 1) (hcap : 2 ≤ s.capacity)
    (hat : snake_get_body_part s 0 = ⟨x, y⟩)
    (hcurr : g.curr_snake_direction = .RIGHT) (hnext : g.next_snake_direction = .NONE)
    (hdue : due_chain g.last_move_time g.game_speed envs = true)
    (hfood : ∀ i : Nat, 1 ≤ i → i ≤ envs.length → g.food ≠ ⟨(x + i) % G, y⟩) :
    ∃ g' s', run_ticks_on G envs g = some g' ∧ g'.snake = some s' ∧ well_formed s' ∧
      s'.len = 1 ∧ s'.capacity = s.capacity ∧
      snake_get_body_part s' 0 = ⟨(x + envs.length) % G, y⟩ ∧
      g'.score = g.score ∧ g'.game_speed = g.game_speed ∧ g'.food = g.food ∧
      g'.running = g.running ∧ g'.curr_snake_direction = .RIGHT ∧
      g'.next_snake_direction = .NONE := by
  induction envs generalizing g s x with
  | nil =>
    refine ⟨g, s, rfl, hs, hwf, hlen, rfl, ?_, rfl, rfl, rfl, rfl, hcurr, hnext⟩
    rw [hat]
    simp only [List.length_nil, Nat.cast_zero, add_zero]
    rw [Int.emod_eq_of_lt hx hxG]
  | cons env rest ih =>
    simp only [due_chain, Bool.and_eq_true, Bool.not_eq_true', decide_eq_false_iff_not]
      at hdue
    obtain ⟨hdue1, hdue2⟩ := hdue
    have hf1 : g.food ≠ ⟨(x + 1) % G, y⟩ := by
      have := hfood 1 (le_refl _) (by simp)
      simpa using this
    obtain ⟨s1, hupd, hwf1, hlen1, hcap1, hat1⟩ :=
      update_on_right_step G hG env g s x y hx hs hwf hlen hcap hat hcurr hnext hdue1 hf1
    have hshift : ∀ i : Nat, ((x + 1) % G + (i : Int)) % G = (x + ((i + 1 : Nat) : Int)) % G := by
      intro i
      rw [Int.emod_add_emod]
      congr 1
      push_cast
      ring
    obtain ⟨g', s', hrun, hs', hwf', hlen', hcap', hat', h1, h2, h3, h4, h5, h6⟩ :=
      ih { g with last_move_time := env.ticks_move, snake := some s1 } s1 ((x + 1) % G)
        (Int.emod_nonneg _ (by omega)) (Int.emod_lt_of_pos _ hG) rfl hwf1 hlen1 (by omega)
        hat1 hcurr hnext hdue2
        (by
          intro i hi1 hi2
          rw [hshift]
          exact hfood (i + 1) (by omega) (by simp; omega))
    refine ⟨g', s', ?_, hs', hwf', hlen', by omega, ?_, h1, h2, h3, h4, h5, h6⟩
    · simp only [run_ticks_on, hupd]
      exact hrun
    · rw [hat', hshift]
      simp only [List.length_cons]

/-! ## The claims -/

/-- C1 (defect of the code): on the empty capacity-8 snake, push `(1,1)`, pop,
push `(2,2)`. The reference list is `[(2,2)]` and `len` is 1, but the second
push leaves `head` at cell 0 while `tail` has moved to cell 1, so
`snake_get_body_part 0` reads cell 1, which still holds what it held before
any push (here `(7,7)`), not `(2,2)`. -/
theorem C1_refill_reads_unwritten_cell :
    reference_ops refill_ops = [⟨2, 2⟩] ∧
    (run_ops (fun _ => ⟨9, 9⟩) (empty_snake (fun _ => ⟨7, 7⟩)) refill_ops).len = 1 ∧
    (run_ops (fun _ => ⟨9, 9⟩) (empty_snake (fun _ => ⟨7, 7⟩)) refill_ops).head = 0 ∧
    (run_ops (fun _ => ⟨9, 9⟩) (empty_snake (fun _ => ⟨7, 7⟩)) refill_ops).tail = 1 ∧
    snake_get_body_part
      (run_ops (fun _ => ⟨9, 9⟩) (empty_snake (fun _ => ⟨7, 7⟩)) refill_ops) 0 = ⟨7, 7⟩ ∧
    segments (run_ops (fun _ => ⟨9, 9⟩) (empty_snake (fun _ => ⟨7, 7⟩)) refill_ops)
      ≠ reference_ops refill_ops := by
  decide

/-- C2: pushing onto a full snake (`len = capacity >= 1`) with a successful
allocation returns true, doubles the capacity, sets `tail = 0`, `head = old len`
and `len = old len + 1`, keeps `snake_get_body_part i` for every `i < old len`
and puts the point at logical index `old len`; the new body has the doubled
number of cells. -/
theorem C2_growth_keeps_segments (snake : Snake) (point : Point) (fresh : Nat → Point)
    (hfull : snake.len = snake.capacity) (hcap : 1 ≤ snake.capacity) :
    ∃ snake', snake_push_head (some fresh) snake point = (true, snake') ∧
      snake'.capacity = snake.capacity * 2 ∧ snake'.body.length = snake'.capacity ∧
      snake'.tail = 0 ∧ snake'.head = snake.len ∧ snake'.len = snake.len + 1 ∧
      (∀ i, i < snake.len → snake_get_body_part snake' i = snake_get_body_part snake i) ∧
      snake_get_body_part snake' snake.len = point ∧
      segments snake' = segments snake ++ [point] := by
  obtain ⟨s', hpush, hwf, hlen, hc, ht, hh, hold, hnew⟩ :=
    push_head_full fresh snake point (by omega) hfull
  exact ⟨s', hpush, hc, hwf.1, ht, hh, hlen, hold, hnew,
    segments_eq_append snake s' point hlen hold hnew⟩

theorem C2_growth_keeps_segments_witness :
    full_snake.len = full_snake.capacity ∧ 1 ≤ full_snake.capacity ∧
    ∃ snake', snake_push_head (some fun _ => ⟨9, 9⟩) full_snake ⟨4, 4⟩ = (true, snake') ∧
      snake'.capacity = full_snake.capacity * 2 ∧ snake'.body.length = snake'.capacity ∧
      snake'.tail = 0 ∧ snake'.head = full_snake.len ∧ snake'.len = full_snake.len + 1 ∧
      (∀ i, i < full_snake.len →
        snake_get_body_part snake' i = snake_get_body_part full_snake i) ∧
      snake_get_body_part snake' full_snake.len = ⟨4, 4⟩ ∧
      segments snake' = segments full_snake ++ [⟨4, 4⟩] :=
  ⟨by decide, by decide,
    C2_growth_keeps_segments full_snake ⟨4, 4⟩ (fun _ => ⟨9, 9⟩) (by decide) (by decide)⟩

/-- C3: a due tick on a well-formed non-empty snake whose resolved direction
yields the candidate `cand`, with no hit in the collision loop and a successful
push. If `cand` is the food, the update is the food loop run on the game that
holds the grown snake, whose sequence is the old one followed by `cand` (one
longer, the old tail still at index 0); every result of the update holds that
snake, and the update returns as soon as an observed iteration of the food loop
draws a pair off the grown snake. If `cand` is not the food, the update
returns, and the sequence is the old one without its first element followed by
`cand`, of the same length. -/
theorem C3_tick_grows_or_moves (env : Env) (g : SnakeGame) (s : Snake) (cand : Point)
    (hs : g.snake = some s) (hwf : well_formed s)
    (hdue : ¬ u64_sub env.ticks_gate g.last_move_time < g.game_speed)
    (hdir : (resolve_direction g).curr_snake_direction ≠ .NONE)
    (hcand : candidate_head (resolve_direction g).curr_snake_direction
      (body_read s.body s.head) = some cand)
    (hnohit : hits_body s cand = false)
    (hpush : (snake_push_head env.malloc_grow s cand).1 = true) :
    (cand = g.food →
      ∃ s', s'.len = s.len + 1 ∧ segments s' = segments s ++ [cand] ∧
        snake_get_body_part s' 0 = snake_get_body_part s 0 ∧
        snake_game_update env g =
          snake_game_spawn_food env.fuel env.rand (after_eating (tick_start env g) s') ∧
        (∀ g', snake_game_update env g = some g' → g'.snake = some s') ∧
        ((∃ k, k < env.fuel ∧ ∀ i, i < s'.len →
            snake_get_body_part s' i ≠ food_sample env.rand k) →
          ∃ g', snake_game_update env g = some g')) ∧
    (cand ≠ g.food →
      ∃ g' s', snake_game_update env g = some g' ∧ g'.snake = some s' ∧
        s'.len = s.len ∧ segments s' = (segments s).tail ++ [cand]) := by
  have _ := hdir
  have hp : snake_push_head env.malloc_grow s cand =
      (true, (snake_push_head env.malloc_grow s cand).2) := by
    rw [← hpush]
  generalize (snake_push_head env.malloc_grow s cand).2 = s1 at hp
  obtain ⟨hwf1, hlen1, hseg1, -⟩ := push_head_ok _ _ _ _ hwf hp
  have hcand' : candidate_head (tick_start env g).curr_snake_direction
      (body_read s.body s.head) = some cand := by
    rw [tick_start_direction]; exact hcand
  have hne : segments s ≠ [] := by
    intro h
    have := congrArg List.length h
    rw [segments_length] at this
    have := hwf.2.1
    simp at *
    omega
  constructor
  · intro hfood
    have hupd := update_eat env g s s1 cand hdue hs hcand' hnohit hp hfood
    refine ⟨s1, hlen1, hseg1, ?_, hupd, ?_, ?_⟩
    · have h0 := segments_getElem? s1 0 (by omega)
      have h1 := segments_getElem? s 0 hwf.2.1
      rw [hseg1, List.getElem?_append_left (by rw [segments_length]; exact hwf.2.1), h1] at h0
      exact (Option.some.inj h0).symm
    · intro g' hg'
      rw [hupd] at hg'
      rw [spawn_food_frame _ _ _ _ hg']
      rfl
    · rintro ⟨k, hk, hfree⟩
      rw [hupd]
      exact spawn_food_returns _ _ _ s1 rfl ⟨k, hk, (on_snake_false_iff _ _).mpr hfree⟩
  · intro hfood
    have hupd := update_move env g s s1 cand hdue hs hcand' hnohit hp hfood
    refine ⟨_, _, hupd, rfl, ?_, ?_⟩
    · have : ¬ s1.len = 0 := by omega
      simp only [snake_pop_tail, this, if_false]
      omega
    · rw [pop_tail_segments, hseg1, List.tail_append_of_ne_nil hne]

theorem C3_tick_grows_or_moves_witness :
    well_formed sample_snake ∧
    ¬ u64_sub (world 1000 3 4).ticks_gate sample_game.last_move_time < sample_game.game_speed ∧
    (resolve_direction sample_game).curr_snake_direction ≠ .NONE ∧
    hits_body sample_snake ⟨16, 15⟩ = false ∧
    (snake_push_head (world 1000 3 4).malloc_grow sample_snake ⟨16, 15⟩).1 = true ∧
    ∃ g' s', snake_game_update (world 1000 3 4) sample_game = some g' ∧ g'.snake = some s' ∧
      s'.len = sample_snake.len ∧
      segments s' = (segments sample_snake).tail ++ [⟨16, 15⟩] :=
  ⟨by decide, by decide, by decide, by decide, by decide,
    (C3_tick_grows_or_moves (world 1000 3 4) sample_game sample_snake ⟨16, 15⟩ rfl (by decide)
      (by decide) (by decide) (by decide) (by decide) (by decide)).2 (by decide)⟩

/-- C4: a due tick whose candidate head equals a segment compared by the
collision loop is exactly a `snake_game_setup` of the game as it stood after
the direction was resolved: nothing is pushed or popped and no score is added.
Every result has score 0, speed 100, `running` true and the one-segment snake
at `(15, 15)`; the call returns whenever the food loop draws a sample off the
centre within the observed iterations. -/
theorem C4_collision_resets (env : Env) (g : SnakeGame) (s : Snake) (cand : Point)
    (hs : g.snake = some s) (hcap : 0 < s.capacity) (hmem : s.body.length = s.capacity)
    (hdue : ¬ u64_sub env.ticks_gate g.last_move_time < g.game_speed)
    (hdir : (resolve_direction g).curr_snake_direction ≠ .NONE)
    (hcand : candidate_head (resolve_direction g).curr_snake_direction
      (body_read s.body s.head) = some cand)
    (hhit : hits_body s cand = true) :
    snake_game_update env g = snake_game_setup env (tick_start env g) ∧
    (∀ g', snake_game_update env g = some g' →
      g'.score = 0 ∧ g'.game_speed = 100 ∧ g'.running = true ∧
      g'.snake = some (reset_snake s) ∧ (reset_snake s).len = 1 ∧
      snake_get_body_part (reset_snake s) 0 = ⟨15, 15⟩ ∧
      segments (reset_snake s) = [⟨15, 15⟩]) ∧
    ((∃ k, k < env.fuel ∧ food_sample env.rand k ≠ ⟨15, 15⟩) →
      ∃ g', snake_game_update env g = some g') := by
  have _ := hdir
  have hcand' : candidate_head (tick_start env g).curr_snake_direction
      (body_read s.body s.head) = some cand := by
    rw [tick_start_direction]; exact hcand
  have hupd := update_hit env g s cand hdue hs hcand' hhit
  have hst : setup_storage env (tick_start env g) = some s := by
    simp [setup_storage, tick_start_snake, hs]
  have hmem' : 0 < s.body.length := by omega
  have hseg := reset_snake_segments s hmem'
  refine ⟨hupd, ?_, ?_⟩
  · intro g' hg'
    rw [hupd, setup_iff env _ g' s hst hcap hmem'] at hg'
    obtain ⟨k, -, -, -, rfl⟩ := hg'
    refine ⟨rfl, rfl, rfl, rfl, rfl, ?_, hseg⟩
    have := segments_getElem? (reset_snake s) 0 (by simp [reset_snake])
    rw [hseg] at this
    simpa using this.symm
  · intro h
    rw [hupd]
    exact setup_returns env _ s hst hcap hmem' h

theorem C4_collision_resets_witness :
    (0 < coiled_snake.capacity ∧ coiled_snake.body.length = coiled_snake.capacity ∧
      ¬ u64_sub (world 1000 3 4).ticks_gate coiled_game.last_move_time < coiled_game.game_speed ∧
      (resolve_direction coiled_game).curr_snake_direction ≠ .NONE ∧
      hits_body coiled_snake ⟨5, 5⟩ = true) ∧
    ∃ g', snake_game_update (world 1000 3 4) coiled_game = some g' ∧ g'.score = 0 ∧
      g'.game_speed = 100 ∧ g'.snake = some (reset_snake coiled_snake) :=
  ⟨by decide,
    have h := C4_collision_resets (world 1000 3 4) coiled_game coiled_snake ⟨5, 5⟩ rfl (by decide)
      (by decide) (by decide) (by decide) (by decide) (by decide)
    (h.2.2 ⟨0, by decide, by decide⟩).elim fun g' hg' =>
      ⟨g', hg', (h.2.1 g' hg').1, (h.2.1 g' hg').2.1, (h.2.1 g' hg').2.2.2.1⟩⟩

/-- C5: from a head `(x, y)` inside the grid the candidate is
`(x, (y - 1 + 30) mod 30)` for Up, `(x, (y + 1) mod 30)` for Down,
`((x - 1 + 30) mod 30, y)` for Left and `((x + 1) mod 30, y)` for Right; the
four edges wrap (row 0 to 29, row 29 to 0, column 0 to 29, column 29 to 0);
every candidate lies in the grid, keeps `x` on a vertical move and keeps `y` on
a horizontal move. -/
theorem C5_candidate_wraps (x y : Int) (hx0 : 0 ≤ x) (hx : x < 30) (hy0 : 0 ≤ y)
    (hy : y < 30) :
    candidate_head .UP ⟨x, y⟩ = some ⟨x, (y - 1 + 30) % 30⟩ ∧
    candidate_head .DOWN ⟨x, y⟩ = some ⟨x, (y + 1) % 30⟩ ∧
    candidate_head .LEFT ⟨x, y⟩ = some ⟨(x - 1 + 30) % 30, y⟩ ∧
    candidate_head .RIGHT ⟨x, y⟩ = some ⟨(x + 1) % 30, y⟩ ∧
    candidate_head .UP ⟨x, 0⟩ = some ⟨x, 29⟩ ∧
    candidate_head .DOWN ⟨x, 29⟩ = some ⟨x, 0⟩ ∧
    candidate_head .LEFT ⟨0, y⟩ = some ⟨29, y⟩ ∧
    candidate_head .RIGHT ⟨29, y⟩ = some ⟨0, y⟩ ∧
    ∀ d cand, candidate_head d ⟨x, y⟩ = some cand →
      in_grid cand ∧ ((d = .UP ∨ d = .DOWN) → cand.x = x) ∧
        ((d = .LEFT ∨ d = .RIGHT) → cand.y = y) := by
  have e1 : Int.tmod (y - 1 + 30) 30 = (y - 1 + 30) % 30 :=
    Int.tmod_eq_emod (by omega) (by omega)
  have e2 : Int.tmod (y + 1) 30 = (y + 1) % 30 := Int.tmod_eq_emod (by omega) (by omega)
  have e3 : Int.tmod (x - 1 + 30) 30 = (x - 1 + 30) % 30 :=
    Int.tmod_eq_emod (by omega) (by omega)
  have e4 : Int.tmod (x + 1) 30 = (x + 1) % 30 := Int.tmod_eq_emod (by omega) (by omega)
  have w1 : Int.tmod 29 30 = 29 := by decide
  have w2 : Int.tmod 30 30 = 0 := by decide
  refine ⟨?_, ?_, ?_, ?_, by simp [candidate_head, GRID_SIZE, w1],
    by simp [candidate_head, GRID_SIZE, w2], by simp [candidate_head, GRID_SIZE, w1],
    by simp [candidate_head, GRID_SIZE, w2], ?_⟩
  · simp [candidate_head, GRID_SIZE, e1]
  · simp [candidate_head, GRID_SIZE, e2]
  · simp [candidate_head, GRID_SIZE, e3]
  · simp [candidate_head, GRID_SIZE, e4]
  · intro d cand h
    cases d <;> simp only [candidate_head, GRID_SIZE, e1, e2, e3, e4, Option.some.injEq,
      reduceCtorEq] at h <;> subst h <;>
      simp only [in_grid, GRID_SIZE] <;>
      refine ⟨⟨?_, ?_, ?_, ?_⟩, ?_, ?_⟩ <;> first | omega | simp

theorem C5_candidate_wraps_witness :
    ((0 : Int) ≤ 29 ∧ (29 : Int) < 30 ∧ (0 : Int) ≤ 0 ∧ (0 : Int) < 30) ∧
    candidate_head .UP ⟨29, 0⟩ = some ⟨29, (0 - 1 + 30) % 30⟩ ∧
    candidate_head .RIGHT ⟨29, 0⟩ = some ⟨(29 + 1) % 30, 0⟩ :=
  ⟨by decide, (C5_candidate_wraps 29 0 (by decide) (by decide) (by decide) (by decide)).1,
    (C5_candidate_wraps 29 0 (by decide) (by decide) (by decide) (by decide)).2.2.2.1⟩

/-- C6: on a game with snake `s`, the food loop returns `g'` exactly when some
iteration `k` within the observed ones draws a pair that differs from every
segment `snake_get_body_part s i`, `i < len`, all earlier iterations drew a
pair equal to some segment, and `g'` is the game with that pair as food. Hence
the food of every result lies in the grid and equals no segment. -/
theorem C6_food_is_first_free_sample (fuel : Nat) (rand : Nat → Nat) (g : SnakeGame)
    (s : Snake) (hs : g.snake = some s) :
    (∀ g', snake_game_spawn_food fuel rand g = some g' ↔
      ∃ k, k < fuel ∧
        (∀ i, i < s.len → snake_get_body_part s i ≠ food_sample rand k) ∧
        (∀ j, j < k → ∃ i, i < s.len ∧ snake_get_body_part s i = food_sample rand j) ∧
        g' = { g with food := food_sample rand k }) ∧
    (∀ g', snake_game_spawn_food fuel rand g = some g' →
      in_grid g'.food ∧ ∀ i, i < s.len → snake_get_body_part s i ≠ g'.food) := by
  have main : ∀ g', snake_game_spawn_food fuel rand g = some g' ↔
      ∃ k, k < fuel ∧
        (∀ i, i < s.len → snake_get_body_part s i ≠ food_sample rand k) ∧
        (∀ j, j < k → ∃ i, i < s.len ∧ snake_get_body_part s i = food_sample rand j) ∧
        g' = { g with food := food_sample rand k } := by
    intro g'
    rw [spawn_food_iff]
    constructor
    · rintro ⟨s', k, hs', hk, hfree, hocc, hg'⟩
      rw [hs] at hs'
      cases hs'
      exact ⟨k, hk, (on_snake_false_iff _ _).mp hfree,
        fun j hj => (on_snake_iff _ _).mp (hocc j hj), hg'⟩
    · rintro ⟨k, hk, hfree, hocc, hg'⟩
      exact ⟨s, k, hs, hk, (on_snake_false_iff _ _).mpr hfree,
        fun j hj => (on_snake_iff _ _).mpr (hocc j hj), hg'⟩
  refine ⟨main, ?_⟩
  intro g' hg'
  obtain ⟨k, -, hfree, -, rfl⟩ := (main g').mp hg'
  exact ⟨food_sample_in_grid rand k, hfree⟩

theorem C6_food_is_first_free_sample_witness :
    sample_game.snake = some sample_snake ∧
    snake_game_spawn_food 4 walking_rand sample_game
      = some { sample_game with food := ⟨16, 15⟩ } ∧
    in_grid (⟨16, 15⟩ : Point) ∧
    ∀ i, i < sample_snake.len → snake_get_body_part sample_snake i ≠ ⟨16, 15⟩ :=
  ⟨rfl, by decide,
    (C6_food_is_first_free_sample 4 walking_rand sample_game
      sample_snake rfl).2 { sample_game with food := ⟨16, 15⟩ } (by decide)⟩

/-- C7 (counterexample to the last clause): `hook_game` is reachable (six
meals after the first setup), heads right with no pending direction, and a Left
key leaves it unchanged; yet its next due tick runs into the snake's own body,
the game is set up again, and the current direction after that tick is `NONE`,
not `RIGHT`. -/
theorem C7_direction_lost_on_reset :
    Reachable hook_game ∧
    hook_game.curr_snake_direction = .RIGHT ∧ hook_game.next_snake_direction = .NONE ∧
    snake_game_handle_event (world 7500 0 0) (.KEY_DOWN .LEFT) hook_game = some hook_game ∧
    ¬ u64_sub (world 8000 3 4).ticks_gate hook_game.last_move_time < hook_game.game_speed ∧
    ∃ g', snake_game_update (world 8000 3 4) hook_game = some g' ∧
      g'.curr_snake_direction = .NONE ∧ g'.curr_snake_direction ≠ .RIGHT :=
  ⟨hook_game_reachable, rfl, rfl, by decide, by decide,
    started (world 8000 3 4) (reset_snake hook_snake) ⟨3, 4⟩, by decide, rfl, by decide⟩

/-- C7 (as amended): a key for the direction opposite to the current one
leaves the whole game unchanged; a key for any other direction stores that
direction as pending and changes nothing else; with current direction Right and
nothing pending, a Left key is ignored, the next tick resolves the direction to
Right, and after any tick the current direction is still Right unless that tick
hit the body and set the game up again. -/
theorem C7_reversal_guard (env : Env) (g : SnakeGame) :
    (∀ d, d ≠ .NONE → g.curr_snake_direction = d →
      snake_game_handle_event env (.KEY_DOWN (arrow_key (opposite d))) g = some g) ∧
    (∀ k, k ≠ .NONE → k ≠ opposite g.curr_snake_direction →
      snake_game_handle_event env (.KEY_DOWN (arrow_key k)) g =
        some { g with next_snake_direction := k }) ∧
    (g.curr_snake_direction = .RIGHT → g.next_snake_direction = .NONE →
      snake_game_handle_event env (.KEY_DOWN .LEFT) g = some g ∧
      (resolve_direction g).curr_snake_direction = .RIGHT ∧
      ∀ env' g', snake_game_update env' g = some g' →
        g'.curr_snake_direction = .RIGHT ∨
        ∃ s cand, g.snake = some s ∧
          candidate_head .RIGHT (body_read s.body s.head) = some cand ∧
          hits_body s cand = true ∧
          snake_game_update env' g = snake_game_setup env' (tick_start env' g)) := by
  refine ⟨?_, ?_, ?_⟩
  · intro d hd hcur
    cases d <;> simp_all [snake_game_handle_event, arrow_key, opposite]
  · intro k hk hopp
    cases k <;> cases hc : g.curr_snake_direction <;>
      simp_all [snake_game_handle_event, arrow_key, opposite]
  · intro hcur hnext
    refine ⟨by simp [snake_game_handle_event, hcur], ?_, ?_⟩
    · rw [resolve_direction_idle g hnext, hcur]
    · intro env' g' hg'
      by_cases hdue : u64_sub env'.ticks_gate g.last_move_time < g.game_speed
      · rw [update_not_due env' g hdue] at hg'
        cases hg'
        exact Or.inl hcur
      · have hdir : (tick_start env' g).curr_snake_direction = .RIGHT := by
          rw [tick_start_direction, resolve_direction_idle g hnext, hcur]
        cases hs : g.snake with
        | none =>
          rw [update_null env' g hdue (by rw [hdir]; decide) hs] at hg'
          exact absurd hg' (by simp)
        | some s =>
          have hcand : candidate_head (tick_start env' g).curr_snake_direction
              (body_read s.body s.head) =
              some { body_read s.body s.head with
                x := Int.tmod ((body_read s.body s.head).x + 1) GRID_SIZE } := by
            rw [hdir]; rfl
          cases hhit : hits_body s { body_read s.body s.head with
                x := Int.tmod ((body_read s.body s.head).x + 1) GRID_SIZE } with
          | true =>
            refine Or.inr ⟨s, _, rfl, rfl, hhit, update_hit env' g s _ hdue hs hcand hhit⟩
          | false =>
            left
            cases hp : snake_push_head env'.malloc_grow s { body_read s.body s.head with
                x := Int.tmod ((body_read s.body s.head).x + 1) GRID_SIZE } with
            | mk ok s1 =>
              cases ok with
              | false =>
                rw [update_push_failed env' g s s1 _ hdue hs hcand hhit hp] at hg'
                cases hg'
                exact hdir
              | true =>
                by_cases hfood : ({ body_read s.body s.head with
                    x := Int.tmod ((body_read s.body s.head).x + 1) GRID_SIZE } : Point) = g.food
                · rw [update_eat env' g s s1 _ hdue hs hcand hhit hp hfood] at hg'
                  rw [spawn_food_frame _ _ _ _ hg']
                  exact hdir
                · rw [update_move env' g s s1 _ hdue hs hcand hhit hp hfood] at hg'
                  cases hg'
                  exact hdir

theorem C7_reversal_guard_witness :
    (sample_game.curr_snake_direction = .RIGHT ∧ sample_game.next_snake_direction = .NONE) ∧
    snake_game_handle_event (world 1000 3 4) (.KEY_DOWN .LEFT) sample_game = some sample_game ∧
    (resolve_direction sample_game).curr_snake_direction = .RIGHT :=
  ⟨⟨rfl, rfl⟩, ((C7_reversal_guard (world 1000 3 4) sample_game).2.2 rfl rfl).1,
    ((C7_reversal_guard (world 1000 3 4) sample_game).2.2 rfl rfl).2.1⟩

/-- C8 (defect of the code): after push `(1,1)`, pop, push `(2,2)` on the empty
capacity-8 snake the bounds hold (`len <= capacity`, `head, tail < capacity`,
capacity still 8) and the cell at `head` holds the last pushed point `(2,2)`,
but `tail` is 1 and the cell at `tail` was never written: it still holds
`(7,7)`, not the oldest surviving point `(2,2)`. -/
theorem C8_refill_leaves_tail_off_head :
    (run_ops (fun _ => ⟨9, 9⟩) (empty_snake (fun _ => ⟨7, 7⟩)) refill_ops).len = 1 ∧
    (run_ops (fun _ => ⟨9, 9⟩) (empty_snake (fun _ => ⟨7, 7⟩)) refill_ops).capacity = 8 ∧
    (run_ops (fun _ => ⟨9, 9⟩) (empty_snake (fun _ => ⟨7, 7⟩)) refill_ops).head = 0 ∧
    (run_ops (fun _ => ⟨9, 9⟩) (empty_snake (fun _ => ⟨7, 7⟩)) refill_ops).tail = 1 ∧
    body_read (run_ops (fun _ => ⟨9, 9⟩) (empty_snake (fun _ => ⟨7, 7⟩)) refill_ops).body
      (run_ops (fun _ => ⟨9, 9⟩) (empty_snake (fun _ => ⟨7, 7⟩)) refill_ops).head = ⟨2, 2⟩ ∧
    body_read (run_ops (fun _ => ⟨9, 9⟩) (empty_snake (fun _ => ⟨7, 7⟩)) refill_ops).body
      (run_ops (fun _ => ⟨9, 9⟩) (empty_snake (fun _ => ⟨7, 7⟩)) refill_ops).tail = ⟨7, 7⟩ ∧
    (reference_ops refill_ops).head? = some ⟨2, 2⟩ := by
  decide

/-- C9: a setup on a game whose snake storage is allocated with at least 8
cells, or whose two allocations succeed. Every result has a one-segment snake
(`len = 1`, `head = tail = 0`) at `(15, 15)` in a store of at least 8 cells, of
unchanged capacity when it was already allocated; both directions are `NONE`,
the score is 0, the speed 100, `running` is true, `last_move_time` is the clock
reading, and the food is inside the grid and off `(15, 15)`. The call returns
whenever the food loop draws a sample off the centre within the observed
iterations. -/
theorem C9_setup_starts_game (env : Env) (g : SnakeGame)
    (hstore : (∃ s, g.snake = some s ∧ INITIAL_SNAKE_CAP ≤ s.capacity ∧
        s.body.length = s.capacity) ∨
      (g.snake = none ∧ env.malloc_snake = true ∧ env.malloc_body.isSome = true)) :
    (∀ g', snake_game_setup env g = some g' →
      (∃ s', g'.snake = some s' ∧ s'.len = 1 ∧ s'.head = 0 ∧ s'.tail = 0 ∧
        snake_get_body_part s' 0 = ⟨15, 15⟩ ∧ segments s' = [⟨15, 15⟩] ∧
        INITIAL_SNAKE_CAP ≤ s'.capacity ∧ s'.body.length = s'.capacity ∧
        ∀ s, g.snake = some s → s'.capacity = s.capacity) ∧
      g'.curr_snake_direction = .NONE ∧ g'.next_snake_direction = .NONE ∧
      g'.score = 0 ∧ g'.game_speed = 100 ∧ g'.running = true ∧
      g'.last_move_time = env.ticks_setup ∧ in_grid g'.food ∧ g'.food ≠ ⟨15, 15⟩) ∧
    ((∃ k, k < env.fuel ∧ food_sample env.rand k ≠ ⟨15, 15⟩) →
      ∃ g', snake_game_setup env g = some g') := by
  have key : ∃ s0, setup_storage env g = some s0 ∧ INITIAL_SNAKE_CAP ≤ s0.capacity ∧
      s0.body.length = s0.capacity ∧ ∀ s, g.snake = some s → s0.capacity = s.capacity := by
    rcases hstore with ⟨s, hs, hc, hm⟩ | ⟨hs, hm1, hm2⟩
    · refine ⟨s, by simp [setup_storage, hs], hc, hm, ?_⟩
      intro s' hs'
      rw [hs] at hs'
      cases hs'
      rfl
    · obtain ⟨fresh, hfresh⟩ := Option.isSome_iff_exists.mp hm2
      refine ⟨{ body := (List.range INITIAL_SNAKE_CAP).map fresh, head := 0, tail := 0,
                len := 0, capacity := INITIAL_SNAKE_CAP },
        by simp [setup_storage, hs, hm1, hfresh], le_refl _, by simp, ?_⟩
      intro s' hs'
      rw [hs] at hs'
      cases hs'
  obtain ⟨s0, hst, hc, hm, hkeep⟩ := key
  have hcap : 0 < s0.capacity := by
    have : INITIAL_SNAKE_CAP = 8 := rfl
    omega
  have hmem : 0 < s0.body.length := by omega
  have hseg := reset_snake_segments s0 hmem
  refine ⟨?_, setup_returns env g s0 hst hcap hmem⟩
  intro g' hg'
  rw [setup_iff env g g' s0 hst hcap hmem] at hg'
  obtain ⟨k, -, hne, -, rfl⟩ := hg'
  refine ⟨⟨reset_snake s0, rfl, rfl, rfl, rfl, ?_, hseg, hc, ?_, hkeep⟩, rfl, rfl, rfl, rfl,
    rfl, rfl, food_sample_in_grid _ _, hne⟩
  · have := segments_getElem? (reset_snake s0) 0 (by simp [reset_snake])
    rw [hseg] at this
    simpa using this.symm
  · simpa [reset_snake] using hm

theorem C9_setup_starts_game_witness :
    (snake_game_init.snake = none ∧ (world 1000 3 4).malloc_snake = true ∧
      (world 1000 3 4).malloc_body.isSome = true) ∧
    ∃ g', snake_game_setup (world 1000 3 4) snake_game_init = some g' ∧ g'.score = 0 ∧
      g'.game_speed = 100 ∧ g'.running = true ∧ g'.food ≠ ⟨15, 15⟩ :=
  ⟨by decide,
    have h := C9_setup_starts_game (world 1000 3 4) snake_game_init (Or.inr (by decide))
    (h.2 ⟨0, by decide, by decide⟩).elim fun g' hg' =>
      ⟨g', hg', (h.1 g' hg').2.2.2.1, (h.1 g' hg').2.2.2.2.1, (h.1 g' hg').2.2.2.2.2.1,
        (h.1 g' hg').2.2.2.2.2.2.2.2⟩⟩

/-- C10: in every reachable game the speed lies between 30 and 100. A due tick
of a reachable game whose candidate head is the food and whose push succeeds is
the food loop run on the game with the grown snake, the score raised by one and
the speed lowered by 5 if it was above 30; so every result has score
`old + 1` and speed `old - 5` when the old speed exceeded 30 and speed 30
otherwise, never below 30; and the tick returns as soon as an observed
iteration of the food loop draws a pair off the grown snake. -/
theorem C10_speed_floor (g : SnakeGame) (hreach : Reachable g) :
    (30 ≤ g.game_speed ∧ g.game_speed ≤ 100) ∧
    ∀ env s cand, g.snake = some s →
      ¬ u64_sub env.ticks_gate g.last_move_time < g.game_speed →
      candidate_head (resolve_direction g).curr_snake_direction (body_read s.body s.head)
        = some cand →
      cand = g.food →
      (snake_push_head env.malloc_grow s cand).1 = true →
      snake_game_update env g =
        snake_game_spawn_food env.fuel env.rand
          (after_eating (tick_start env g) (snake_push_head env.malloc_grow s cand).2) ∧
      (after_eating (tick_start env g) (snake_push_head env.malloc_grow s cand).2).score
        = g.score + 1 ∧
      (∀ g', snake_game_update env g = some g' →
        g'.score = g.score + 1 ∧
        g'.game_speed = (if g.game_speed > 30 then g.game_speed - 5 else 30) ∧
        30 ≤ g'.game_speed) ∧
      ((∃ k, k < env.fuel ∧ ∀ i, i < (snake_push_head env.malloc_grow s cand).2.len →
          snake_get_body_part (snake_push_head env.malloc_grow s cand).2 i
            ≠ food_sample env.rand k) →
        ∃ g', snake_game_update env g = some g') := by
  obtain ⟨s0, hinv⟩ := reachable_inv g hreach
  have hge := hinv.speed_ge
  have hle := hinv.speed_le
  have hstep := hinv.speed_step
  simp only [MAX_SPEED, INITIAL_SPEED_MS, SPEED_INCREMENT] at hge hle hstep
  refine ⟨⟨hge, hle⟩, ?_⟩
  intro env s cand hs hdue hcand hfood hpush
  rw [hinv.snake_eq] at hs
  cases hs
  have hcand' : candidate_head (tick_start env g).curr_snake_direction
      (body_read s0.body s0.head) = some cand := by
    rw [tick_start_direction]; exact hcand
  have hnohit : hits_body s0 cand = false := by
    rw [hits_body_false_iff, hfood]
    exact fun hm => hinv.food_free (List.mem_of_mem_tail hm)
  have hp : snake_push_head env.malloc_grow s0 cand =
      (true, (snake_push_head env.malloc_grow s0 cand).2) := by
    rw [← hpush]
  have hupd := update_eat env g s0 _ cand hdue hinv.snake_eq hcand' hnohit hp hfood
  have hlen := inv_len_le g s0 hinv
  have hsl := hinv.score_len
  have hscore : (after_eating (tick_start env g)
      (snake_push_head env.malloc_grow s0 cand).2).score = g.score + 1 := by
    simp only [after_eating, tick_start_score]
    exact Nat.mod_eq_of_lt (by omega)
  refine ⟨hupd, hscore, ?_, ?_⟩
  · intro g' hg'
    rw [hupd] at hg'
    rw [spawn_food_frame _ _ _ _ hg']
    refine ⟨hscore, ?_, ?_⟩
    · simp only [after_eating, tick_start_speed, MAX_SPEED, SPEED_INCREMENT]
      split <;> omega
    · simp only [after_eating, tick_start_speed, MAX_SPEED, SPEED_INCREMENT]
      split <;> omega
  · rintro ⟨k, hk, hfree⟩
    rw [hupd]
    exact spawn_food_returns _ _ _ _ rfl ⟨k, hk, (on_snake_false_iff _ _).mpr hfree⟩

theorem C10_speed_floor_witness :
    Reachable eat_game ∧
    ∃ g', snake_game_update (world 2000 16 15) eat_game = some g' ∧
      g'.score = eat_game.score + 1 ∧
      g'.game_speed = (if eat_game.game_speed > 30 then eat_game.game_speed - 5 else 30) ∧
      30 ≤ g'.game_speed :=
  have hr : Reachable eat_game :=
    Reachable.event (world 1500 0 0) (.KEY_DOWN .RIGHT) first_game eat_game
      (Reachable.setup (world 1000 16 15) first_game (by decide) rfl) (by decide)
  ⟨hr,
    { after_eating (tick_start (world 2000 16 15) eat_game)
        (snake_push_head (world 2000 16 15).malloc_grow first_snake ⟨16, 15⟩).2 with
      food := ⟨2, 3⟩ },
    by decide,
    ((C10_speed_floor eat_game hr).2 (world 2000 16 15) first_snake ⟨16, 15⟩ rfl
      (by decide) (by decide) (by decide) (by decide)).2.2.1 _ (by decide)⟩

/-- C11: `snake_push_head` returns false exactly when `len + 1 > capacity` and
the allocation fails, and then the snake it leaves is the one it was given.
When the push of a due tick fails (no hit in the collision loop), the update
returns the game as it stood after the direction was resolved with `running`
cleared: `running` is false, and snake, food, score and speed are those of the
game before the tick, so nothing was pushed or popped. -/
theorem C11_push_fails_only_on_alloc (malloc : Option (Nat → Point)) (snake : Snake)
    (point : Point) :
    ((snake_push_head malloc snake point).1 = false ↔
      snake.len + 1 > snake.capacity ∧ malloc = none) ∧
    ((snake_push_head malloc snake point).1 = false →
      (snake_push_head malloc snake point).2 = snake) ∧
    ∀ (env : Env) (g : SnakeGame) (cand : Point),
      env.malloc_grow = malloc → g.snake = some snake →
      ¬ u64_sub env.ticks_gate g.last_move_time < g.game_speed →
      candidate_head (resolve_direction g).curr_snake_direction
        (body_read snake.body snake.head) = some cand →
      hits_body snake cand = false →
      (snake_push_head malloc snake cand).1 = false →
      snake_game_update env g = some { tick_start env g with running := false } ∧
      ∀ g', snake_game_update env g = some g' →
        g'.running = false ∧ g'.snake = g.snake ∧ g'.food = g.food ∧
        g'.score = g.score ∧ g'.game_speed = g.game_speed := by
  have hiff : ∀ p, (snake_push_head malloc snake p).1 = false ↔
      snake.len + 1 > snake.capacity ∧ malloc = none := by
    intro p
    by_cases hgrow : snake.len + 1 > snake.capacity
    · cases malloc with
      | none => simp [snake_push_head, hgrow]
      | some fresh => simp [snake_push_head, hgrow]
    · simp [snake_push_head, hgrow]
  have hsame : ∀ p, (snake_push_head malloc snake p).1 = false →
      (snake_push_head malloc snake p).2 = snake := by
    intro p h
    obtain ⟨hgrow, hm⟩ := (hiff p).mp h
    subst hm
    simp [snake_push_head, hgrow]
  refine ⟨hiff point, hsame point, ?_⟩
  intro env g cand hm hs hdue hcand hhit hfail
  subst hm
  have hcand' : candidate_head (tick_start env g).curr_snake_direction
      (body_read snake.body snake.head) = some cand := by
    rw [tick_start_direction]; exact hcand
  have hp : snake_push_head env.malloc_grow snake cand =
      (false, (snake_push_head env.malloc_grow snake cand).2) := by
    rw [← hfail]
  have hupd := update_push_failed env g snake _ cand hdue hs hcand' hhit hp
  refine ⟨hupd, ?_⟩
  intro g' hg'
  rw [hupd] at hg'
  cases hg'
  exact ⟨rfl, tick_start_snake env g, tick_start_food env g, tick_start_score env g,
    tick_start_speed env g⟩

theorem C11_push_fails_only_on_alloc_witness :
    (snake_push_head none full_snake ⟨3, 2⟩).1 = false ∧
    (snake_push_head none full_snake ⟨3, 2⟩).2 = full_snake ∧
    ∃ g', snake_game_update (starved 1000) full_game = some g' ∧ g'.running = false ∧
      g'.snake = full_game.snake ∧ g'.score = full_game.score :=
  have h := C11_push_fails_only_on_alloc none full_snake ⟨3, 2⟩
  have hf : (snake_push_head none full_snake ⟨3, 2⟩).1 = false := h.1.mpr ⟨by decide, rfl⟩
  have hu := h.2.2 (starved 1000) full_game ⟨3, 2⟩ rfl rfl (by decide) (by decide)
    (by decide) hf
  ⟨hf, h.2.1 hf, _, hu.1, (hu.2 _ hu.1).1, (hu.2 _ hu.1).2.1, (hu.2 _ hu.1).2.2.2.1⟩

/-- C12: `snake_pop_tail` returns an empty snake unchanged; on a snake with
`len > 0` it sets `tail` to `(tail + 1) mod capacity` and `len` to `len - 1`
and keeps `head`, `capacity` and the body, so the new
`snake_get_body_part i` is the old `snake_get_body_part (i + 1)`, in
particular for every `i < len - 1`. -/
theorem C12_pop_tail_frame (snake : Snake) :
    (snake.len = 0 → snake_pop_tail snake = snake) ∧
    (snake.len > 0 →
      (snake_pop_tail snake).tail = (snake.tail + 1) % snake.capacity ∧
      (snake_pop_tail snake).len = snake.len - 1 ∧
      (snake_pop_tail snake).head = snake.head ∧
      (snake_pop_tail snake).capacity = snake.capacity ∧
      (snake_pop_tail snake).body = snake.body ∧
      (∀ i, i < snake.len - 1 →
        snake_get_body_part (snake_pop_tail snake) i = snake_get_body_part snake (i + 1)) ∧
      segments (snake_pop_tail snake) = (segments snake).tail) := by
  constructor
  · intro h
    simp [snake_pop_tail, h]
  · intro h
    have h0 : ¬ snake.len = 0 := by omega
    refine ⟨?_, ?_, ?_, ?_, ?_, ?_, pop_tail_segments snake⟩
    · simp [snake_pop_tail, h0]
    · simp [snake_pop_tail, h0]
    · simp [snake_pop_tail, h0]
    · simp [snake_pop_tail, h0]
    · simp [snake_pop_tail, h0]
    · intro i _
      exact pop_tail_get snake i h

theorem C12_pop_tail_frame_witness :
    full_snake.len > 0 ∧
    (snake_pop_tail full_snake).tail = (full_snake.tail + 1) % full_snake.capacity ∧
    (snake_pop_tail full_snake).len = full_snake.len - 1 ∧
    segments (snake_pop_tail full_snake) = (segments full_snake).tail ∧
    (snake_pop_tail (empty_snake fun _ => ⟨7, 7⟩)) = empty_snake fun _ => ⟨7, 7⟩ :=
  ⟨by decide, ((C12_pop_tail_frame full_snake).2 (by decide)).1,
    ((C12_pop_tail_frame full_snake).2 (by decide)).2.1,
    ((C12_pop_tail_frame full_snake).2 (by decide)).2.2.2.2.2.2,
    (C12_pop_tail_frame (empty_snake fun _ => ⟨7, 7⟩)).1 rfl⟩

/-- C13: with the grid size a parameter `G > 0` (the update on a grid of size
`GRID_SIZE = 30` is `snake_game_update`): for a game whose well-formed snake
has the single segment `(x, y)`, `0 <= x < G`, in a store of at least two
cells, with current direction Right and nothing pending, `n` successive due
updates during which the food is on none of the cells `((x + i) mod G, y)`,
`1 <= i <= n`, all return; afterwards the snake is one segment at
`((x + n) mod G, y)`, and score, speed, food, `running` and the direction are
unchanged, so no reset occurred. -/
theorem C13_right_moves_wrap (G : Int) (hG : 0 < G) (envs : List Env) (g : SnakeGame)
    (s : Snake) (x y : Int) (hx : 0 ≤ x) (hxG : x < G) (hs : g.snake = some s)
    (hwf : well_formed s) (hlen : s.len = 1) (hcap : 2 ≤ s.capacity)
    (hat : snake_get_body_part s 0 = ⟨x, y⟩)
    (hcurr : g.curr_snake_direction = .RIGHT) (hnext : g.next_snake_direction = .NONE)
    (hdue : due_chain g.last_move_time g.game_speed envs = true)
    (hfood : ∀ i : Nat, 1 ≤ i → i ≤ envs.length → g.food ≠ ⟨(x + i) % G, y⟩) :
    (∀ env g0, snake_game_update_on GRID_SIZE env g0 = snake_game_update env g0) ∧
    ∃ g' s', run_ticks_on G envs g = some g' ∧ g'.snake = some s' ∧ s'.len = 1 ∧
      snake_get_body_part s' 0 = ⟨(x + envs.length) % G, y⟩ ∧
      body_read s'.body s'.head = ⟨(x + envs.length) % G, y⟩ ∧
      segments s' = [⟨(x + envs.length) % G, y⟩] ∧
      g'.score = g.score ∧ g'.game_speed = g.game_speed ∧ g'.food = g.food ∧
      g'.running = g.running ∧ g'.curr_snake_direction = .RIGHT := by
  refine ⟨update_on_grid_size, ?_⟩
  obtain ⟨g', s', hrun, hs', hwf', hlen', -, hat', h1, h2, h3, h4, h5, -⟩ :=
    run_ticks_on_right G hG envs g s x y hx hxG hs hwf hlen hcap hat hcurr hnext hdue hfood
  refine ⟨g', s', hrun, hs', hlen', hat', ?_, ?_, h1, h2, h3, h4, h5⟩
  · rw [head_read_eq_last s' hwf', hlen']
    exact hat'
  · have hr : List.range 1 = [0] := rfl
    simp only [segments, hlen', hr, List.map_cons, List.map_nil, hat']

theorem C13_right_moves_wrap_witness :
    (well_formed toy_snake ∧ toy_snake.len = 1 ∧ 2 ≤ toy_snake.capacity ∧
      snake_get_body_part toy_snake 0 = ⟨2, 2⟩ ∧
      due_chain toy_game.last_move_time toy_game.game_speed toy_worlds = true) ∧
    ∃ g' s', run_ticks_on 4 toy_worlds toy_game = some g' ∧ g'.snake = some s' ∧
      s'.len = 1 ∧ snake_get_body_part s' 0 = ⟨1, 2⟩ ∧ g'.score = toy_game.score :=
  ⟨by decide,
    (C13_right_moves_wrap 4 (by decide) toy_worlds toy_game toy_snake 2 2 (by decide)
      (by decide) rfl (by decide) rfl (by decide) (by decide) rfl rfl (by decide)
      (fun _ _ _ h => by have hy := congrArg Point.y h; simp [toy_game] at hy)).2.elim
      fun g' h => h.elim fun s' hs' =>
        ⟨g', s', hs'.1, hs'.2.1, hs'.2.2.1, hs'.2.2.2.1, hs'.2.2.2.2.2.2.1⟩⟩

/-- C14: in a due tick whose resolved direction yields the candidate `cand`,
the collision loop hits exactly when `cand` equals `snake_get_body_part i` for
some `1 <= i <= len - 1`. On a hit the update is `snake_game_setup` on the game
after direction resolution; otherwise it goes on with the push of `cand`, which
on success becomes the new head of a well-formed snake. A result of the update
has current direction `NONE`, the mark of a reset, exactly on a hit. A
candidate that equals only the segment of logical index 0 is no hit. -/
theorem C14_collision_loop_skips_tail (env : Env) (g : SnakeGame) (s : Snake) (cand : Point)
    (hs : g.snake = some s) (hcap : 0 < s.capacity) (hmem : s.body.length = s.capacity)
    (hdue : ¬ u64_sub env.ticks_gate g.last_move_time < g.game_speed)
    (hdir : (resolve_direction g).curr_snake_direction ≠ .NONE)
    (hcand : candidate_head (resolve_direction g).curr_snake_direction
      (body_read s.body s.head) = some cand) :
    (hits_body s cand = true ↔
      ∃ i, 1 ≤ i ∧ i < s.len ∧ snake_get_body_part s i = cand) ∧
    ((∃ i, 1 ≤ i ∧ i < s.len ∧ snake_get_body_part s i = cand) →
      snake_game_update env g = snake_game_setup env (tick_start env g)) ∧
    ((¬ ∃ i, 1 ≤ i ∧ i < s.len ∧ snake_get_body_part s i = cand) →
      snake_game_update env g =
        match snake_push_head env.malloc_grow s cand with
        | (false, _) => some { tick_start env g with running := false }
        | (true, s1) =>
          if cand = g.food then
            snake_game_spawn_food env.fuel env.rand (after_eating (tick_start env g) s1)
          else some { tick_start env g with snake := some (snake_pop_tail s1) }) ∧
    (well_formed s → ∀ s1, snake_push_head env.malloc_grow s cand = (true, s1) →
      segments s1 = segments s ++ [cand] ∧ body_read s1.body s1.head = cand) ∧
    (∀ g', snake_game_update env g = some g' →
      (g'.curr_snake_direction = .NONE ↔
        ∃ i, 1 ≤ i ∧ i < s.len ∧ snake_get_body_part s i = cand)) ∧
    (snake_get_body_part s 0 = cand →
      (∀ i, 1 ≤ i → i < s.len → snake_get_body_part s i ≠ cand) →
      hits_body s cand = false ∧
      ∀ g', snake_game_update env g = some g' → g'.curr_snake_direction ≠ .NONE) := by
  have hcand' : candidate_head (tick_start env g).curr_snake_direction
      (body_read s.body s.head) = some cand := by
    rw [tick_start_direction]; exact hcand
  have hdir' : (tick_start env g).curr_snake_direction ≠ .NONE := by
    rw [tick_start_direction]; exact hdir
  have hiff := hits_body_iff s cand
  have hreset : hits_body s cand = true →
      snake_game_update env g = snake_game_setup env (tick_start env g) :=
    fun h => update_hit env g s cand hdue hs hcand' h
  have hst : setup_storage env (tick_start env g) = some s := by
    simp [setup_storage, tick_start_snake, hs]
  have hobs : ∀ g', snake_game_update env g = some g' →
      (g'.curr_snake_direction = .NONE ↔ hits_body s cand = true) := by
    intro g' hg'
    cases hhit : hits_body s cand with
    | true =>
      rw [hreset hhit, setup_iff env _ g' s hst hcap (by omega)] at hg'
      obtain ⟨k, -, -, -, rfl⟩ := hg'
      exact ⟨fun _ => rfl, fun _ => rfl⟩
    | false =>
      have := (update_no_hit_direction env g g' s cand hdue hs hcand' hhit hg').1
      rw [this]
      exact ⟨fun h => absurd h hdir', fun h => absurd h (by simp)⟩
  refine ⟨hiff, fun h => hreset (hiff.mpr h), ?_, ?_, ?_, ?_⟩
  · intro h
    have hhit : hits_body s cand = false := by
      rw [← Bool.not_eq_true, hiff]; exact h
    exact update_no_hit env g s cand hdue hs hcand' hhit
  · intro hwf s1 hp
    obtain ⟨hwf1, hlen1, hseg1, -⟩ := push_head_ok _ _ _ _ hwf hp
    refine ⟨hseg1, ?_⟩
    rw [head_read_eq_last s1 hwf1]
    have h1 := segments_getElem? s1 (s1.len - 1) (by omega)
    rw [hseg1, hlen1, Nat.add_sub_cancel,
      List.getElem?_append_right (by rw [segments_length]), segments_length,
      Nat.sub_self] at h1
    rw [hlen1, Nat.add_sub_cancel]
    simpa using h1.symm
  · intro g' hg'
    rw [hobs g' hg', hiff]
  · intro _ hno
    have hhit : hits_body s cand = false := by
      rw [← Bool.not_eq_true, hiff]
      rintro ⟨i, h1, h2, h3⟩
      exact hno i h1 h2 h3
    refine ⟨hhit, ?_⟩
    intro g' hg'
    rw [Ne, hobs g' hg', hhit]
    simp

theorem C14_collision_loop_skips_tail_witness :
    (0 < square_snake.capacity ∧ square_snake.body.length = square_snake.capacity ∧
      ¬ u64_sub (world 1000 3 4).ticks_gate square_game.last_move_time
        < square_game.game_speed ∧
      (resolve_direction square_game).curr_snake_direction ≠ .NONE ∧
      snake_get_body_part square_snake 0 = ⟨5, 5⟩) ∧
    hits_body square_snake ⟨5, 5⟩ = false ∧
    ∃ g' s', snake_game_update (world 1000 3 4) square_game = some g' ∧
      g'.curr_snake_direction ≠ .NONE ∧ g'.snake = some s' ∧
      segments s' = [⟨6, 5⟩, ⟨6, 6⟩, ⟨5, 6⟩, ⟨5, 5⟩] :=
  have h := C14_collision_loop_skips_tail (world 1000 3 4) square_game square_snake ⟨5, 5⟩
    rfl (by decide) (by decide) (by decide) (by decide) (by decide)
  have h6 := h.2.2.2.2.2 (by decide) (by decide)
  have hu : snake_game_update (world 1000 3 4) square_game =
      some { tick_start (world 1000 3 4) square_game with
        snake := some (snake_pop_tail
          (snake_push_head (world 1000 3 4).malloc_grow square_snake ⟨5, 5⟩).2) } := by
    decide
  ⟨by decide, h6.1, _, _, hu, h6.2 _ hu, rfl, by decide⟩

/-- C15: in every reachable game the food equals no segment of the snake; so
when the candidate head of a tick is the food, it equals no segment either,
the tail at logical index 0 included, and the collision loop does not hit. -/
theorem C15_food_off_snake (g : SnakeGame) (hreach : Reachable g) :
    ∃ s, g.snake = some s ∧
      (∀ i, i < s.len → snake_get_body_part s i ≠ g.food) ∧
      ∀ d cand, candidate_head d (body_read s.body s.head) = some cand → cand = g.food →
        (∀ i, i < s.len → snake_get_body_part s i ≠ cand) ∧
        snake_get_body_part s 0 ≠ cand ∧ hits_body s cand = false := by
  obtain ⟨s, hinv⟩ := reachable_inv g hreach
  have hfree : ∀ i, i < s.len → snake_get_body_part s i ≠ g.food := by
    intro i hi heq
    exact hinv.food_free ((mem_segments s g.food).mpr ⟨i, hi, heq⟩)
  refine ⟨s, hinv.snake_eq, hfree, ?_⟩
  intro d cand _ hfood
  subst hfood
  refine ⟨hfree, hfree 0 hinv.wf.2.1, ?_⟩
  rw [hits_body_false_iff]
  exact fun hm => hinv.food_free (List.mem_of_mem_tail hm)

theorem C15_food_off_snake_witness :
    Reachable hook_game ∧
    ∃ s, hook_game.snake = some s ∧
      ∀ i, i < s.len → snake_get_body_part s i ≠ hook_game.food :=
  ⟨hook_game_reachable,
    (C15_food_off_snake hook_game hook_game_reachable).elim
      fun s hs => ⟨s, hs.1, hs.2.1⟩⟩

/-- C16 (counterexample): first, a due tick whose two clock readings are 1000
at the gate and 1001 for the stamp leaves `last_move_time` at 1001, not at the
reading the gate used. Second, a due tick on `turn_game`, whose pending
direction Up leads into the body, ends in a reset: the pending direction was
not `NONE`, yet the current direction after the update is `NONE`, not Up. -/
theorem C16_stamp_and_direction_differ :
    (¬ u64_sub late_clock.ticks_gate sample_game.last_move_time < sample_game.game_speed ∧
      ∃ g', snake_game_update late_clock sample_game = some g' ∧
        g'.last_move_time = 1001 ∧ g'.last_move_time ≠ late_clock.ticks_gate) ∧
    (¬ u64_sub (world 1000 3 4).ticks_gate turn_game.last_move_time < turn_game.game_speed ∧
      turn_game.next_snake_direction = .UP ∧
      ∃ g', snake_game_update (world 1000 3 4) turn_game = some g' ∧
        g'.curr_snake_direction = .NONE ∧
        g'.curr_snake_direction ≠ turn_game.next_snake_direction) :=
  ⟨⟨by decide,
      { tick_start late_clock sample_game with
        snake := some (snake_pop_tail
          (snake_push_head late_clock.malloc_grow sample_snake ⟨16, 15⟩).2) },
      by decide, rfl, by decide⟩,
    by decide, rfl, started (world 1000 3 4) (reset_snake coiled_snake) ⟨3, 4⟩, by decide, rfl,
    by decide⟩

/-- C16 (as amended): with `now` the clock reading at the gate, if
`now - last_move_time < game_speed` the update returns the game unchanged.
Otherwise the game that the rest of the tick starts from has `last_move_time`
set to the second clock reading (equal to `now` when the clock did not advance
in between), the pending direction, if not `NONE`, as current direction, the
pending slot cleared, and snake, food, score, speed and `running` untouched; if
its current direction is `NONE` it is the result of the update; and every
result of the update has that stamp, that current direction and an empty
pending slot, unless the tick hit the body and set the game up again. -/
theorem C16_gate_and_resolution (env : Env) (g : SnakeGame) :
    (u64_sub env.ticks_gate g.last_move_time < g.game_speed →
      snake_game_update env g = some g) ∧
    (¬ u64_sub env.ticks_gate g.last_move_time < g.game_speed →
      (tick_start env g).last_move_time = env.ticks_move ∧
      (env.ticks_move = env.ticks_gate →
        (tick_start env g).last_move_time = env.ticks_gate) ∧
      (tick_start env g).curr_snake_direction =
        (if g.next_snake_direction ≠ .NONE then g.next_snake_direction
          else g.curr_snake_direction) ∧
      (tick_start env g).next_snake_direction = .NONE ∧
      ((tick_start env g).snake = g.snake ∧ (tick_start env g).food = g.food ∧
        (tick_start env g).score = g.score ∧
        (tick_start env g).game_speed = g.game_speed ∧
        (tick_start env g).running = g.running) ∧
      ((tick_start env g).curr_snake_direction = .NONE →
        snake_game_update env g = some (tick_start env g)) ∧
      ∀ g', snake_game_update env g = some g' →
        (g'.last_move_time = env.ticks_move ∧
          g'.curr_snake_direction = (tick_start env g).curr_snake_direction ∧
          g'.next_snake_direction = .NONE) ∨
        ∃ s cand, g.snake = some s ∧
          candidate_head (tick_start env g).curr_snake_direction (body_read s.body s.head)
            = some cand ∧
          hits_body s cand = true ∧
          snake_game_update env g = snake_game_setup env (tick_start env g)) := by
  refine ⟨update_not_due env g, ?_⟩
  intro hdue
  refine ⟨tick_start_time env g, fun h => by rw [tick_start_time, h], ?_,
    tick_start_next env g,
    ⟨tick_start_snake env g, tick_start_food env g, tick_start_score env g,
      tick_start_speed env g, tick_start_running env g⟩,
    update_idle env g hdue, ?_⟩
  · rw [tick_start_direction]
    unfold resolve_direction
    split <;> rfl
  · intro g' hg'
    rcases update_cases env g g' hg' with ⟨hnd, -⟩ | ⟨-, -, rfl⟩ |
      ⟨s, cand, hs, -, hcand, hpath⟩
    · exact absurd hnd hdue
    · exact Or.inl ⟨tick_start_time env g, rfl, tick_start_next env g⟩
    · cases hhit : hits_body s cand with
      | true =>
        exact Or.inr ⟨s, cand, hs, hcand, hhit, update_hit env g s cand hdue hs hcand hhit⟩
      | false =>
        obtain ⟨h1, h2, h3⟩ := update_no_hit_direction env g g' s cand hdue hs hcand hhit hg'
        exact Or.inl ⟨by rw [h3, tick_start_time], h1, by rw [h2, tick_start_next]⟩

theorem C16_gate_and_resolution_witness :
    ¬ u64_sub late_clock.ticks_gate square_game.last_move_time < square_game.game_speed ∧
    (tick_start late_clock square_game).last_move_time = 1001 ∧
    (tick_start late_clock square_game).curr_snake_direction = .UP ∧
    (tick_start late_clock square_game).next_snake_direction = .NONE ∧
    snake_game_update late_clock { sample_game with last_move_time := 950 }
      = some { sample_game with last_move_time := 950 } :=
  have h := (C16_gate_and_resolution late_clock square_game).2 (by decide)
  ⟨by decide, h.1, h.2.2.1, h.2.2.2.1,
    (C16_gate_and_resolution late_clock { sample_game with last_move_time := 950 }).1
      (by decide)⟩

/-- C17: on a game with snake `s`, the food loop terminates on a stream exactly
when some pair of the stream, each call reduced modulo 30, is on no segment.
If every grid cell is a segment, it terminates on no stream; if some grid cell
is no segment, there is a stream on which it returns in its first iteration. -/
theorem C17_food_loop_termination (g : SnakeGame) (s : Snake) (hs : g.snake = some s) :
    (∀ rand, spawn_terminates rand g ↔
      ∃ k, ∀ i, i < s.len → snake_get_body_part s i ≠ food_sample rand k) ∧
    ((∀ p, in_grid p → ∃ i, i < s.len ∧ snake_get_body_part s i = p) →
      ∀ rand, ¬ spawn_terminates rand g) ∧
    ((∃ p, in_grid p ∧ ∀ i, i < s.len → snake_get_body_part s i ≠ p) →
      ∃ rand g', snake_game_spawn_food 1 rand g = some g') := by
  have main : ∀ rand, spawn_terminates rand g ↔
      ∃ k, ∀ i, i < s.len → snake_get_body_part s i ≠ food_sample rand k := by
    intro rand
    rw [spawn_terminates_iff rand g s hs]
    constructor
    · rintro ⟨k, hk⟩
      exact ⟨k, (on_snake_false_iff _ _).mp hk⟩
    · rintro ⟨k, hk⟩
      exact ⟨k, (on_snake_false_iff _ _).mpr hk⟩
  refine ⟨main, ?_, ?_⟩
  · intro hfull rand hterm
    obtain ⟨k, hk⟩ := (main rand).mp hterm
    obtain ⟨i, hi, heq⟩ := hfull _ (food_sample_in_grid rand k)
    exact hk i hi heq
  · rintro ⟨p, hp, hfree⟩
    refine ⟨stream_at p, spawn_food_returns 1 (stream_at p) g s hs ⟨0, by omega, ?_⟩⟩
    rw [food_sample_stream_at p hp]
    exact (on_snake_false_iff _ _).mpr hfree

theorem C17_food_loop_termination_witness :
    sample_game.snake = some sample_snake ∧
    (spawn_terminates walking_rand sample_game ↔
      ∃ k, ∀ i, i < sample_snake.len →
        snake_get_body_part sample_snake i ≠ food_sample walking_rand k) ∧
    ∃ rand g', snake_game_spawn_food 1 rand sample_game = some g' :=
  ⟨rfl, (C17_food_loop_termination sample_game sample_snake rfl).1 walking_rand,
    (C17_food_loop_termination sample_game sample_snake rfl).2.2
      ⟨⟨0, 0⟩, by decide, by decide⟩⟩

/-- C18: in every reachable game the snake has `1 <= len <= capacity`,
`tail < capacity`, `head < capacity` and `head = (tail + len - 1) mod capacity`,
and its body addresses `capacity` cells. So the read of `body[head]` is the
segment of logical index `len - 1`, the cell of every logical index and the
cell at `head` lie inside the body, and the bound `len - 1` of the render loop
does not wrap. -/
theorem C18_indices_in_bounds (g : SnakeGame) (hreach : Reachable g) :
    ∃ s, g.snake = some s ∧
      1 ≤ s.len ∧ s.len ≤ s.capacity ∧ s.tail < s.capacity ∧ s.head < s.capacity ∧
      s.head = (s.tail + s.len - 1) % s.capacity ∧ s.body.length = s.capacity ∧
      body_read s.body s.head = snake_get_body_part s (s.len - 1) ∧
      s.head < s.body.length ∧
      (∀ idx, (s.tail + idx) % s.capacity < s.body.length) ∧
      render_loop_bound s = s.len - 1 ∧ render_loop_bound s < s.len := by
  obtain ⟨s, hinv⟩ := reachable_inv g hreach
  obtain ⟨hb, hl, hc, hh⟩ := hinv.wf
  have hcap : 0 < s.capacity := by omega
  have hhead : s.head < s.capacity := by
    rw [hh]; exact Nat.mod_lt _ hcap
  have hdec : render_loop_bound s = s.len - 1 := by
    unfold render_loop_bound size_dec
    rw [if_neg (by omega)]
  refine ⟨s, hinv.snake_eq, hl, hc, hinv.tail_lt, hhead, hh, hb,
    head_read_eq_last s hinv.wf, by omega, ?_, hdec, by omega⟩
  intro idx
  rw [hb]
  exact Nat.mod_lt _ hcap

theorem C18_indices_in_bounds_witness :
    Reachable hook_game ∧
    ∃ s, hook_game.snake = some s ∧ 1 ≤ s.len ∧ s.len ≤ s.capacity ∧
      body_read s.body s.head = snake_get_body_part s (s.len - 1) :=
  ⟨hook_game_reachable,
    (C18_indices_in_bounds hook_game hook_game_reachable).elim
      fun s hs => ⟨s, hs.1, hs.2.1, hs.2.2.1, hs.2.2.2.2.2.2.2.1⟩⟩

/-- C19: in every reachable game whose current direction is not `NONE` the
pending direction is not its opposite; so no update of a reachable game turns a
current direction `d` into the opposite of `d`, also when any number of events
were handled since the last update. -/
theorem C19_no_direct_reversal (g : SnakeGame) (hreach : Reachable g) :
    (g.curr_snake_direction ≠ .NONE →
      g.next_snake_direction ≠ opposite g.curr_snake_direction) ∧
    (∀ env g', snake_game_update env g = some g' → g.curr_snake_direction ≠ .NONE →
      g'.curr_snake_direction ≠ opposite g.curr_snake_direction) ∧
    (∀ events g1 env g2, snake_game_handle_events events g = some g1 →
      snake_game_update env g1 = some g2 → g1.curr_snake_direction ≠ .NONE →
      g1.next_snake_direction ≠ opposite g1.curr_snake_direction ∧
      g2.curr_snake_direction ≠ opposite g1.curr_snake_direction) := by
  obtain ⟨s, hinv⟩ := reachable_inv g hreach
  refine ⟨hinv.no_reverse, fun env g' hu hd => update_no_reversal env g g' s hinv hu hd, ?_⟩
  intro events g1 env g2 hev hu hd
  obtain ⟨s1, hinv1⟩ := reachable_inv g1 (reachable_handle_events events g g1 hreach hev)
  exact ⟨hinv1.no_reverse hd, update_no_reversal env g1 g2 s1 hinv1 hu hd⟩

theorem C19_no_direct_reversal_witness :
    Reachable hook_game ∧ hook_game.curr_snake_direction ≠ .NONE ∧
    hook_game.next_snake_direction ≠ opposite hook_game.curr_snake_direction ∧
    ∀ g1 g2,
      snake_game_handle_events
        [(world 7500 0 0, .KEY_DOWN .UP), (world 7600 0 0, .KEY_DOWN .LEFT)] hook_game
        = some g1 →
      snake_game_update (world 8000 3 4) g1 = some g2 →
      g1.curr_snake_direction ≠ .NONE →
      g2.curr_snake_direction ≠ opposite g1.curr_snake_direction :=
  ⟨hook_game_reachable, by decide,
    (C19_no_direct_reversal hook_game hook_game_reachable).1 (by decide),
    fun g1 g2 h1 h2 h3 =>
      ((C19_no_direct_reversal hook_game hook_game_reachable).2.2 _ g1 _ g2 h1 h2 h3).2⟩

/-- C20: in every reachable game the segments of the snake are pairwise
distinct cells of the grid, so there are at most 900 of them; and they stay so
after any update, the ones whose candidate head is the cell of the tail, which
the collision loop does not compare, included. -/
theorem C20_segments_distinct (g : SnakeGame) (hreach : Reachable g) :
    ∃ s, g.snake = some s ∧
      (∀ i j, i < j → j < s.len → snake_get_body_part s i ≠ snake_get_body_part s j) ∧
      (∀ i, i < s.len → in_grid (snake_get_body_part s i)) ∧
      (segments s).Nodup ∧ s.len ≤ 900 ∧
      ∀ env g', snake_game_update env g = some g' →
        ∃ s', g'.snake = some s' ∧ (segments s').Nodup ∧
          ∀ i, i < s'.len → in_grid (snake_get_body_part s' i) := by
  obtain ⟨s, hinv⟩ := reachable_inv g hreach
  refine ⟨s, hinv.snake_eq, ?_, ?_, hinv.nodup, inv_len_le g s hinv, ?_⟩
  rotate_left 2
  · intro env g' hu
    obtain ⟨s', hinv'⟩ := inv_update env g g' s hinv hu
    exact ⟨s', hinv'.snake_eq, hinv'.nodup,
      fun i hi => hinv'.grid _ ((mem_segments s' _).mpr ⟨i, hi, rfl⟩)⟩
  · intro i j hij hj heq
    have h := List.nodup_iff_getElem?_ne_getElem?.mp hinv.nodup i j hij
      (by rw [segments_length]; exact hj)
    rw [segments_getElem? s i (by omega), segments_getElem? s j hj, heq] at h
    exact h rfl
  · intro i hi
    exact hinv.grid _ ((mem_segments s _).mpr ⟨i, hi, rfl⟩)

theorem C20_segments_distinct_witness :
    Reachable hook_game ∧
    ∃ s, hook_game.snake = some s ∧ (segments s).Nodup ∧ s.len ≤ 900 :=
  ⟨hook_game_reachable,
    (C20_segments_distinct hook_game hook_game_reachable).elim
      fun s hs => ⟨s, hs.1, hs.2.2.2.1, hs.2.2.2.2.1⟩⟩

end Cyberconda
